import Mathlib

/-!
# Verification of the diagram-conversion core of `mcp-diagram-tools`

This file gives a shallow embedding, in Lean 4, of the format-adapter core of
`src/mcp_diagram_tools/server.py`: the draw.io (compressed-graph-XML) parser and
generator, the Excalidraw (whiteboard-JSON) parser and generator, the SVG
generator, and the geometry helpers used for connector routing.  Theorems below
settle the testable properties stated in the design document.

Modelling conventions:

* Python `float` values are modelled as exact rationals (`ℚ`); all geometry in
  the program is plain arithmetic on coordinates, and none of the verified
  properties depends on binary rounding.
* Python dictionaries produced by `json.loads` / built by the parsers are
  modelled as structures whose fields are `Option`-valued: `none` models an
  absent key (and also a key stored with value `None`, which every use site in
  the program treats identically via `dict.get`).
* External primitives (URL-decoding, Base64, raw-inflate, `ET.fromstring`,
  UTF-8 decoding) are passed in as oracle functions, mirroring the design
  document's description of them as external collaborators; an `Option`/`Except`
  result models a raised exception.
* `random.randint` seeds, `versionNonce` and the `updated` timestamp written by
  the Excalidraw generator are omitted from the element model: no parser or
  claim observes them.  `gen_id()` is modelled by an explicit supply of fresh
  identifiers threaded through the generator.
-/

namespace DiagramTools

/-- Python `str.strip()`: drop leading and trailing whitespace (defined
structurally so that it evaluates on literals). -/
def pyStrip (s : String) : String :=
  ⟨((s.data.dropWhile Char.isWhitespace).reverse.dropWhile Char.isWhitespace).reverse⟩

/-- Python truthiness of an optional string (`None` and `""` are falsy). -/
def truthy : Option String → Bool
  | none => false
  | some s => !(s = "")

/-- Python `min(iterable, default=d)`: the default is used only when the
iterable is empty (it does not participate in the minimum). -/
def pyMin (l : List ℚ) (d : ℚ) : ℚ :=
  match l with
  | [] => d
  | x :: xs => xs.foldl min x

/-- Python `max(iterable, default=d)`. -/
def pyMax (l : List ℚ) (d : ℚ) : ℚ :=
  match l with
  | [] => d
  | x :: xs => xs.foldl max x

/-- A 2-d point (a two-element list in the Python code). -/
abbrev Pt := ℚ × ℚ

/-! ## Graph-model input records

The generators receive lists of Python dictionaries (from `json.loads` in
`diagram_write`, or built by one of the parsers in `diagram_convert`).  The
fields below are exactly the keys the three generators read; `none` models an
absent key. -/

/-- The nested "geometry" dictionary a draw.io-parsed node carries
(`node.get('geometry', {})`). -/
structure PyGeo where
  x : Option ℚ := none
  y : Option ℚ := none
  width : Option ℚ := none
  height : Option ℚ := none
  deriving Repr, DecidableEq

/-- A node dictionary as consumed by `_create_drawio_xml`,
`_create_excalidraw_json` and `_create_svg`. -/
structure PyNode where
  id : Option String := none
  label : Option String := none
  text : Option String := none
  ntype : Option String := none        -- the "type" key
  x : Option ℚ := none
  y : Option ℚ := none
  width : Option ℚ := none
  height : Option ℚ := none
  geometry : Option PyGeo := none
  style : Option String := none
  fontSize : Option ℚ := none
  strokeColor : Option String := none
  backgroundColor : Option String := none
  fillStyle : Option String := none
  strokeStyle : Option String := none
  textColor : Option String := none
  strokeWidth : Option ℚ := none
  roughness : Option ℚ := none
  rounded : Option Bool := none
  deriving Repr, DecidableEq

/-- `node.get('geometry', {}).get(k, d)` — the draw.io generator reads
positions through the nested geometry dict. -/
def PyNode.geomGet (n : PyNode) (f : PyGeo → Option ℚ) (d : ℚ) : ℚ :=
  match n.geometry with
  | none => d
  | some g => (f g).getD d

/-- An edge dictionary as consumed by the generators. -/
structure PyEdge where
  id : Option String := none
  source : Option String := none
  target : Option String := none
  label : Option String := none
  style : Option String := none
  points : Option (List Pt) := none
  x : Option ℚ := none
  y : Option ℚ := none
  curveStyle : Option String := none
  curveDirection : Option String := none
  startSide : Option String := none
  endSide : Option String := none
  strokeStyle : Option String := none
  strokeColor : Option String := none
  strokeWidth : Option ℚ := none
  startArrowhead : Option String := none
  endArrowhead : Option String := none
  deriving Repr, DecidableEq

/-- `node.get('label', node.get('text', ''))` — the label fallback used by the
Excalidraw and SVG generators. -/
def PyNode.pyLabel (n : PyNode) : String :=
  match n.label with
  | some l => l
  | none => n.text.getD ""

/-- Python `if not edge.get('points'):` — true when the key is absent or holds
an empty list. -/
def PyEdge.pointsTruthy (e : PyEdge) : Bool :=
  match e.points with
  | some (_ :: _) => true
  | _ => false

/-! ## Geometry module

`_generate_curved_points`, `_generate_step_points` and the inline anchor
resolution of `_create_excalidraw_json` (lines 711–756 of `server.py`). -/

/-- `_generate_curved_points(dx, dy, curve_direction)`: 3-point curved path
with the midpoint offset perpendicular to the line. -/
def generate_curved_points (dx dy : ℚ) (dir : String) : List Pt :=
  let mid_x : ℚ := dx / 2
  let mid_y : ℚ := dy / 2
  let offset : ℚ := max |dx| |dy| * (2/10 : ℚ)
  if dir = "up" then [(0, 0), (mid_x, mid_y - offset), (dx, dy)]
  else if dir = "down" then [(0, 0), (mid_x, mid_y + offset), (dx, dy)]
  else if dir = "left" then [(0, 0), (mid_x - offset, mid_y), (dx, dy)]
  else if dir = "right" then [(0, 0), (mid_x + offset, mid_y), (dx, dy)]
  else
    -- Auto: offset perpendicular to line
    if |dx| > |dy| then [(0, 0), (mid_x, mid_y + offset), (dx, dy)]
    else [(0, 0), (mid_x - offset, mid_y), (dx, dy)]

/-- `_generate_step_points(dx, dy)`: 3-point step/elbow path. -/
def generate_step_points (dx dy : ℚ) : List Pt :=
  if |dy| > |dx| then [(0, 0), (0, dy), (dx, dy)]
  else [(0, 0), (dx, 0), (dx, dy)]

/-- Start-anchor resolution of `_create_excalidraw_json` (lines 714–734):
given the source box `(sx, sy, sw, sh)`, the centre-to-centre travel direction
`(dx, dy)` and the optional explicit `startSide`, compute the point on the
source box where the arrow starts. -/
def resolveStartAnchor (sx sy sw sh dx dy : ℚ) (side : Option String) : Pt :=
  let scx := sx + sw / 2
  let scy := sy + sh / 2
  if side = some "bottom" then (scx, sy + sh)
  else if side = some "top" then (scx, sy)
  else if side = some "left" then (sx, scy)
  else if side = some "right" then (sx + sw, scy)
  else
    if |dx| > |dy| then ((if dx > 0 then sx + sw else sx), scy)
    else (scx, (if dy > 0 then sy + sh else sy))

/-- End-anchor resolution of `_create_excalidraw_json` (lines 736–756): the
`auto` branch picks the edge of the target box facing the source (the travel
direction `(dx, dy)` points towards the target box). -/
def resolveEndAnchor (tx ty tw th dx dy : ℚ) (side : Option String) : Pt :=
  let tcx := tx + tw / 2
  let tcy := ty + th / 2
  if side = some "top" then (tcx, ty)
  else if side = some "bottom" then (tcx, ty + th)
  else if side = some "left" then (tx, tcy)
  else if side = some "right" then (tx + tw, tcy)
  else
    if |dx| > |dy| then ((if dx > 0 then tx else tx + tw), tcy)
    else (tcx, (if dy > 0 then ty else ty + th))

/-- A point lies on the boundary (not interior) of the axis-aligned box with
top-left corner `(bx, by')` and size `w × h`. -/
def onBoundary (bx by' w h : ℚ) (p : Pt) : Prop :=
  (p.1 = bx ∨ p.1 = bx + w ∨ p.2 = by' ∨ p.2 = by' + h) ∧
    bx ≤ p.1 ∧ p.1 ≤ bx + w ∧ by' ≤ p.2 ∧ p.2 ≤ by' + h

/-- C4: for every `endDx`, `endDy`, `_generate_curved_points` returns a 3-point
path whose middle point is `[endDx/2, endDy/2]` displaced by
`0.2 * max(|endDx|, |endDy|)`: `up`/`down` displace the vertical coordinate
(up negative, down positive), `left`/`right` the horizontal one (left negative,
right positive), and `auto` displaces vertically (downward) when
`|endDx| > |endDy|` and horizontally (leftward) otherwise; in particular
`curvedPath(100, 0, "auto")` has midpoint y-offset `+20` and
`curvedPath(0, 100, "auto")` has midpoint x-offset `-20`. -/
theorem curved_path_midpoint_offset :
    ∀ dx dy : ℚ,
      generate_curved_points dx dy "up" =
        [(0, 0), (dx / 2, dy / 2 - max |dx| |dy| * (2/10)), (dx, dy)] ∧
      generate_curved_points dx dy "down" =
        [(0, 0), (dx / 2, dy / 2 + max |dx| |dy| * (2/10)), (dx, dy)] ∧
      generate_curved_points dx dy "left" =
        [(0, 0), (dx / 2 - max |dx| |dy| * (2/10), dy / 2), (dx, dy)] ∧
      generate_curved_points dx dy "right" =
        [(0, 0), (dx / 2 + max |dx| |dy| * (2/10), dy / 2), (dx, dy)] ∧
      generate_curved_points dx dy "auto" =
        (if |dx| > |dy| then
          [(0, 0), (dx / 2, dy / 2 + max |dx| |dy| * (2/10)), (dx, dy)]
         else
          [(0, 0), (dx / 2 - max |dx| |dy| * (2/10), dy / 2), (dx, dy)]) ∧
      generate_curved_points 100 0 "auto" = [(0, 0), (50, 20), (100, 0)] ∧
      generate_curved_points 0 100 "auto" = [(0, 0), (-20, 50), (0, 100)] := by
  intro dx dy
  refine ⟨?_, ?_, ?_, ?_, ?_, ?_, ?_⟩ <;> simp +decide [generate_curved_points] <;> norm_num

/-- C5: anchor resolution with an explicit side returns the midpoint of that
box edge regardless of the travel direction `(dx, dy)` — both for the start
anchor and for the end anchor — and for `explicitSide="top"` on the box
`{x:0, y:0, w:100, h:50}` the result is `(50, 0)`.  With side `auto` the start
anchor picks the left/right edge midpoint when `|dx| > |dy|` (right edge iff
`dx > 0`) and otherwise the top/bottom edge midpoint (bottom iff `dy > 0`);
the tie `|dx| = |dy|` resolves via the vertical branch.  (The end anchor's
`auto` branch applies the same rule with the travel direction reversed, since
there `(dx, dy)` points towards the box being anchored.) -/
theorem resolve_anchor_sides :
    ∀ sx sy sw sh dx dy : ℚ,
      resolveStartAnchor sx sy sw sh dx dy (some "top") = (sx + sw / 2, sy) ∧
      resolveStartAnchor sx sy sw sh dx dy (some "bottom") = (sx + sw / 2, sy + sh) ∧
      resolveStartAnchor sx sy sw sh dx dy (some "left") = (sx, sy + sh / 2) ∧
      resolveStartAnchor sx sy sw sh dx dy (some "right") = (sx + sw, sy + sh / 2) ∧
      resolveEndAnchor sx sy sw sh dx dy (some "top") = (sx + sw / 2, sy) ∧
      resolveEndAnchor sx sy sw sh dx dy (some "bottom") = (sx + sw / 2, sy + sh) ∧
      resolveEndAnchor sx sy sw sh dx dy (some "left") = (sx, sy + sh / 2) ∧
      resolveEndAnchor sx sy sw sh dx dy (some "right") = (sx + sw, sy + sh / 2) ∧
      resolveStartAnchor 0 0 100 50 dx dy (some "top") = (50, 0) ∧
      resolveStartAnchor sx sy sw sh dx dy none =
        (if |dx| > |dy| then ((if dx > 0 then sx + sw else sx), sy + sh / 2)
         else (sx + sw / 2, (if dy > 0 then sy + sh else sy))) ∧
      resolveStartAnchor sx sy sw sh dx dx none =
        (sx + sw / 2, (if dx > 0 then sy + sh else sy)) := by
  intro sx sy sw sh dx dy
  refine ⟨?_, ?_, ?_, ?_, ?_, ?_, ?_, ?_, ?_, ?_, ?_⟩ <;>
    simp +decide [resolveStartAnchor, resolveEndAnchor] <;> norm_num

/-! ## draw.io (compressed-graph-XML) model

XML attribute values that the parser feeds to `float()` are modelled as either
a numeric literal with its value (`XmlNum.val`) or non-numeric text
(`XmlNum.raw`, on which `float()` raises `ValueError`). -/

inductive XmlNum
  | val (q : ℚ)
  | raw (s : String)
  deriving Repr, DecidableEq

def XmlNum.toFloat? : XmlNum → Option ℚ
  | .val q => some q
  | .raw _ => none

/-- An `mxGeometry` child element (attributes only; `as`/`relative` are
written by the generator and ignored by the parser). -/
structure MxGeometry where
  x : Option XmlNum := none
  y : Option XmlNum := none
  width : Option XmlNum := none
  height : Option XmlNum := none
  relative : Option String := none
  asAttr : Option String := none
  deriving Repr, DecidableEq

/-- An `mxCell` element: the attributes `_parse_drawio_mxgraphmodel` reads and
`_create_drawio_xml` writes, plus the first `mxGeometry` child. -/
structure MxCell where
  id : Option String := none
  value : Option String := none
  style : Option String := none
  source : Option String := none
  target : Option String := none
  vertex : Option String := none
  edge : Option String := none
  parent : Option String := none
  geometry : Option MxGeometry := none
  deriving Repr, DecidableEq

/-- `float(geometry.get('x', 0))`: a missing attribute defaults to `0`; a
present attribute is converted by `float()`, which raises `ValueError`
(modelled as `none`) when the text is not a numeric literal. -/
def attrFloat : Option XmlNum → Option ℚ
  | none => some 0
  | some n => n.toFloat?

/-- The `geo_data` dictionary built for a parsed node. -/
structure GeoData where
  x : ℚ
  y : ℚ
  width : ℚ
  height : ℚ
  deriving Repr, DecidableEq

/-- A node entry of `_parse_drawio_mxgraphmodel`'s result
(`geometry = none` models the empty `geo_data` dict). -/
structure DNode where
  id : String
  label : String
  style : String
  geometry : Option GeoData
  deriving Repr, DecidableEq

/-- An edge entry of `_parse_drawio_mxgraphmodel`'s result. -/
structure DEdge where
  id : String
  source : String
  target : String
  label : String
  style : String
  deriving Repr, DecidableEq

structure DrawioGraph where
  nodes : List DNode := []
  edges : List DEdge := []
  deriving Repr, DecidableEq

/-- Reading the four geometry attributes of a node cell; `ValueError`
propagates as `Except.error`. -/
def parseGeo (g : MxGeometry) : Except String GeoData :=
  match attrFloat g.x, attrFloat g.y, attrFloat g.width, attrFloat g.height with
  | some x, some y, some w, some h => .ok ⟨x, y, w, h⟩
  | _, _, _, _ => .error "ValueError: could not convert string to float"

/-- One iteration of the `for cell in root.iter('mxCell')` loop of
`_parse_drawio_mxgraphmodel`. -/
def parseCell (acc : DrawioGraph) (c : MxCell) : Except String DrawioGraph :=
  let cid := c.id.getD ""
  let value := c.value.getD ""
  let style := c.style.getD ""
  if cid = "0" ∨ cid = "1" then .ok acc
  else if truthy c.source && truthy c.target then
    .ok { acc with
          edges := acc.edges ++ [⟨cid, c.source.getD "", c.target.getD "", value, style⟩] }
  else if value ≠ "" ∨ c.vertex = some "1" then
    match c.geometry with
    | none => .ok { acc with nodes := acc.nodes ++ [⟨cid, value, style, none⟩] }
    | some g =>
      match parseGeo g with
      | .ok gd => .ok { acc with nodes := acc.nodes ++ [⟨cid, value, style, some gd⟩] }
      | .error err => .error err
  else .ok acc

/-- `_parse_drawio_mxgraphmodel(root)`: the cells are the `mxCell` descendants
of the root, in document order. -/
def parse_drawio_mxgraphmodel (cells : List MxCell) : Except String DrawioGraph :=
  cells.foldlM parseCell {}

/-! ### Payload decoding (`_decode_drawio_data`)

URL-decoding, Base64, raw-inflate and UTF-8 decoding are external primitives;
they enter as an oracle.  Byte strings are modelled as `String`. -/

structure DecodeOracle where
  urlDecode : String → String
  b64decode : String → Option String
  inflate : String → Option String
  utf8decode : String → Option String

/-- The chain of decodings attempted inside the `try` of
`_decode_drawio_data`; `none` when any stage raises. -/
def decodeChain (o : DecodeOracle) (data : String) : Option String := do
  let b ← o.b64decode (o.urlDecode data)
  let d ← o.inflate b
  o.utf8decode d

/-- `_decode_drawio_data(data)`: URL-decode, Base64-decode, raw-inflate and
UTF-8-decode in order; on any failure return the data unchanged. -/
def decode_drawio_data (o : DecodeOracle) (data : String) : String :=
  (decodeChain o data).getD data

/-! ### `_read_drawio` -/

/-- A `<diagram>` element of an `mxfile` container: its `name` attribute, its
text payload (`diagram.text`), and the cells of a nested `mxGraphModel` child
when present (`diagram.find('.//mxGraphModel')`). -/
structure DiagramElem where
  name : Option String := none
  text : Option String := none
  nested : Option (List MxCell) := none

/-- A parsed draw.io document, as discriminated by `root.tag`. -/
inductive DrawioXml
  | mxfile (diagrams : List DiagramElem)
  | mxGraphModel (cells : List MxCell)
  | otherTag

/-- `ET.fromstring` applied to a decoded diagram payload, reduced to the list
of `mxCell` descendants of the resulting tree (`none` models `ParseError`). -/
structure XmlOracle where
  fromstring : String → Option (List MxCell)

structure NamedGraph where
  name : String
  graph : DrawioGraph
  deriving Repr, DecidableEq

/-- The result dictionary of `_read_drawio` (success case); `text_content` is
built from a Python `set`, hence a `Finset`. -/
structure DrawioReadResult where
  diagrams : List NamedGraph
  text_content : Finset String
  diagram_count : Nat
  total_nodes : Nat
  total_edges : Nat
  deriving DecidableEq

/-- `_read_drawio` returns either the `{"error": ...}` dictionary (tagged
parse error) or the parsed result. -/
inductive DrawioReadOutcome
  | parseError (msg : String)
  | ok (r : DrawioReadResult)
  deriving DecidableEq

/-- The labels contributing to `all_text` for one diagram. -/
def graphText (g : DrawioGraph) : Finset String :=
  (g.nodes.filterMap (fun n => if n.label ≠ "" then some n.label else none)).toFinset ∪
    (g.edges.filterMap (fun e => if e.label ≠ "" then some e.label else none)).toFinset

/-- The final assembly of `_read_drawio`'s result from the parsed diagrams. -/
def finishDrawio (ds : List NamedGraph) : DrawioReadResult :=
  { diagrams := ds
    text_content := (ds.map (fun d => graphText d.graph)).foldr (· ∪ ·) ∅
    diagram_count := ds.length
    total_nodes := (ds.map (fun d => d.graph.nodes.length)).sum
    total_edges := (ds.map (fun d => d.graph.edges.length)).sum }

/-- The fallback of the `mxfile` branch: parse a nested `mxGraphModel` child
directly.  This call to `_parse_drawio_mxgraphmodel` is *not* inside a
`try`, so an exception here propagates. -/
def nestedFallback (acc : List NamedGraph) (name : String) (d : DiagramElem) :
    Except String (List NamedGraph) :=
  match d.nested with
  | some cells =>
    match parse_drawio_mxgraphmodel cells with
    | .ok g => .ok (acc ++ [⟨name, g⟩])
    | .error err => .error err
  | none => .ok acc

/-- One iteration of the `for diagram in root.findall('.//diagram')` loop:
decode the text payload and parse it; on any exception fall back to a nested
`mxGraphModel` child. -/
def processDiagram (dec : DecodeOracle) (xo : XmlOracle) (acc : List NamedGraph)
    (d : DiagramElem) : Except String (List NamedGraph) :=
  let name := d.name.getD "Untitled"
  match d.text with
  | some data =>
    if data ≠ "" then
      let decoded := decode_drawio_data dec (pyStrip data)
      match xo.fromstring decoded with
      | some cells =>
        match parse_drawio_mxgraphmodel cells with
        | .ok g => .ok (acc ++ [⟨name, g⟩])
        | .error _ => nestedFallback acc name d
      | none => nestedFallback acc name d
    else nestedFallback acc name d
  | none => nestedFallback acc name d

/-- `_read_drawio(file_path)`, with the outcome of the top-level
`ET.fromstring(content)` as input (`.error` = `ET.ParseError`).  The outer
`Except` models an exception escaping the parser. -/
def read_drawio (dec : DecodeOracle) (xo : XmlOracle)
    (content : Except String DrawioXml) : Except String DrawioReadOutcome :=
  match content with
  | .error e => .ok (.parseError ("Invalid XML: " ++ e))
  | .ok root =>
    match root with
    | .mxfile ds =>
      match ds.foldlM (processDiagram dec xo) [] with
      | .ok diagrams => .ok (.ok (finishDrawio diagrams))
      | .error err => .error err
    | .mxGraphModel cells =>
      match parse_drawio_mxgraphmodel cells with
      | .ok g => .ok (.ok (finishDrawio [⟨"Main", g⟩]))
      | .error err => .error err
    | .otherTag => .ok (.ok (finishDrawio []))

/-! ### `_create_drawio_xml` -/

def defaultNodeStyle : String := "rounded=1;whiteSpace=wrap;html=1;"

def defaultEdgeStyle : String :=
  "edgeStyle=orthogonalEdgeStyle;rounded=0;orthogonalLoop=1;jettySize=auto;html=1;"

/-- `enumerate`: map with the running index. -/
def enumMap (f : Nat → α → β) : Nat → List α → List β
  | _, [] => []
  | i, a :: rest => f i a :: enumMap f (i + 1) rest

/-- The `mxCell` emitted for the `i`-th node by `_create_drawio_xml`. -/
def drawioNodeCell (i : Nat) (n : PyNode) : MxCell :=
  { id := some (n.id.getD ("node-" ++ toString (i + 2)))
    value := some (n.label.getD "")
    style := some (n.style.getD defaultNodeStyle)
    vertex := some "1"
    parent := some "1"
    geometry := some
      { x := some (.val (n.geomGet (·.x) ((i : ℚ) * 150)))
        y := some (.val (n.geomGet (·.y) 100))
        width := some (.val (n.geomGet (·.width) 120))
        height := some (.val (n.geomGet (·.height) 60))
        asAttr := some "geometry" } }

/-- The `mxCell` emitted for the `i`-th edge by `_create_drawio_xml`. -/
def drawioEdgeCell (i : Nat) (e : PyEdge) : MxCell :=
  { id := some (e.id.getD ("edge-" ++ toString (i + 100)))
    value := some (e.label.getD "")
    style := some (e.style.getD defaultEdgeStyle)
    edge := some "1"
    parent := some "1"
    source := some (e.source.getD "")
    target := some (e.target.getD "")
    geometry := some { relative := some "1", asAttr := some "geometry" } }

/-- `_create_drawio_xml(nodes, edges, name)`: one `mxfile` container holding
one `diagram` whose `mxGraphModel` child contains the two implicit root
cells, then the node cells, then the edge cells.  (The serialized diagram has
the model as a child element and no text payload, which is how `_read_drawio`
re-reads it.) -/
def create_drawio_xml (nodes : List PyNode) (edges : List PyEdge) (name : String) :
    DrawioXml :=
  .mxfile [{ name := some name
             text := none
             nested := some
               ([{ id := some "0" }, { id := some "1", parent := some "0" }] ++
                 enumMap drawioNodeCell 0 nodes ++ enumMap drawioEdgeCell 0 edges) }]

/-- The node dictionary produced by `_read_drawio`, as the generators receive
it from `diagram_convert`. -/
def DNode.toPy (n : DNode) : PyNode :=
  { id := some n.id
    label := some n.label
    style := some n.style
    geometry := some
      (match n.geometry with
       | none => {}
       | some g =>
         { x := some g.x, y := some g.y, width := some g.width, height := some g.height }) }

/-- The edge dictionary produced by `_read_drawio`, as the generators receive
it from `diagram_convert`. -/
def DEdge.toPy (e : DEdge) : PyEdge :=
  { id := some e.id
    source := some e.source
    target := some e.target
    label := some e.label
    style := some e.style }

theorem truthy_getD {o : Option String} (h : truthy o = true) : o.getD "" ≠ "" := by
  cases o with
  | none => simp [truthy] at h
  | some s => simpa [truthy] using h

/-- Each cell either leaves the edge list unchanged or appends one edge whose
`source` and `target` attributes were both truthy. -/
theorem parseCell_edges (acc : DrawioGraph) (c : MxCell) (g' : DrawioGraph)
    (h : parseCell acc c = .ok g') :
    g'.edges = acc.edges ∨
      (g'.edges = acc.edges ++
          [⟨c.id.getD "", c.source.getD "", c.target.getD "", c.value.getD "",
            c.style.getD ""⟩] ∧
        truthy c.source = true ∧ truthy c.target = true) := by
  simp only [parseCell] at h
  split at h
  · left; cases h; rfl
  · split at h
    · next hb =>
      right
      cases h
      exact ⟨rfl, ((Bool.and_eq_true _ _).mp hb).1, ((Bool.and_eq_true _ _).mp hb).2⟩
    · split at h
      · split at h
        · left; cases h; rfl
        · split at h
          · left; cases h; rfl
          · cases h
      · left; cases h; rfl

/-- Folding `parseCell` only ever appends truthy-endpoint edges. -/
theorem foldParse_edges :
    ∀ (cells : List MxCell) (acc g : DrawioGraph),
      cells.foldlM parseCell acc = .ok g →
      ∀ e ∈ g.edges, e ∈ acc.edges ∨ (e.source ≠ "" ∧ e.target ≠ "") := by
  intro cells
  induction cells with
  | nil =>
    intro acc g h e he
    cases h
    exact Or.inl he
  | cons c rest ih =>
    intro acc g h e he
    rw [List.foldlM_cons] at h
    cases hc : parseCell acc c with
    | error err => rw [hc] at h; cases h
    | ok acc' =>
      rw [hc] at h
      rcases ih acc' g h e he with hmem | hok
      · rcases parseCell_edges acc c acc' hc with heq | ⟨heq, hs, ht⟩
        · exact Or.inl (heq ▸ hmem)
        · rw [heq, List.mem_append] at hmem
          rcases hmem with hmem | hmem
          · exact Or.inl hmem
          · simp only [List.mem_singleton] at hmem
            subst hmem
            exact Or.inr ⟨truthy_getD hs, truthy_getD ht⟩
      · exact Or.inr hok

/-- C10: in `_parse_drawio_mxgraphmodel`, a cell is classified as an Edge only
when both its `source` and `target` attributes are present and non-empty:
every parsed Edge has non-empty endpoints; a non-reserved cell carrying
anything less than two truthy endpoints is classified as a Node exactly when
it has a non-empty `value` or an explicit `vertex="1"` flag (appending one
node entry and no edge entry), and is otherwise omitted from the result
entirely. -/
theorem drawio_edge_requires_both_endpoints :
    (∀ (cells : List MxCell) (g : DrawioGraph),
      parse_drawio_mxgraphmodel cells = .ok g →
      ∀ e ∈ g.edges, e.source ≠ "" ∧ e.target ≠ "") ∧
    (∀ (acc : DrawioGraph) (c : MxCell),
      ¬(c.id.getD "" = "0" ∨ c.id.getD "" = "1") →
      (truthy c.source && truthy c.target) = false →
      ((c.value.getD "" = "" ∧ ¬c.vertex = some "1") → parseCell acc c = .ok acc) ∧
      (∀ g', (c.value.getD "" ≠ "" ∨ c.vertex = some "1") → parseCell acc c = .ok g' →
        g'.edges = acc.edges ∧
          ∃ geo, g'.nodes = acc.nodes ++
            [⟨c.id.getD "", c.value.getD "", c.style.getD "", geo⟩])) := by
  constructor
  · intro cells g h e he
    rcases foldParse_edges cells {} g h e he with hmem | hok
    · simp at hmem
    · exact hok
  · intro acc c hid hb
    constructor
    · intro ⟨hv, hvx⟩
      simp only [parseCell]
      rw [if_neg hid, if_neg (by simp [hb]), if_neg (by push_neg; exact ⟨hv, hvx⟩)]
    · intro g' hclass h
      simp only [parseCell] at h
      rw [if_neg hid, if_neg (by simp [hb]), if_pos hclass] at h
      split at h
      · cases h
        exact ⟨rfl, none, rfl⟩
      · split at h
        · next gd hg =>
          cases h
          exact ⟨rfl, some gd, rfl⟩
        · cases h

theorem exceptBind_ok (a : α) (f : α → Except ε β) : (Except.ok a >>= f) = f a := rfl

theorem exceptPure (a : α) : (pure a : Except ε α) = Except.ok a := rfl

/-- C9: parsing an `mxfile` container whose embedded diagram payload is plain
uncompressed XML still yields the same Node/Edge graph as parsing the
equivalently encoded payload: the decoder tries URL-decode, Base64-decode and
raw-inflate in order, and on any failure of that chain falls back to treating
the payload as already-plaintext XML.  Here `p` is a plain payload (the decode
chain fails on it), `q` an encoded payload (the chain succeeds and yields
plaintext `pt`), and both parse to the same cells, hence to the same graph. -/
theorem drawio_plain_xml_payload_fallback
    (dec : DecodeOracle) (xo : XmlOracle) (nm p q pt : String)
    (cells : List MxCell) (g : DrawioGraph)
    (hp : p ≠ "")
    (hfail : decodeChain dec (pyStrip p) = none)
    (hxml : xo.fromstring (pyStrip p) = some cells)
    (hq : q ≠ "")
    (hchain : decodeChain dec (pyStrip q) = some pt)
    (hxml' : xo.fromstring pt = some cells)
    (hparse : parse_drawio_mxgraphmodel cells = .ok g) :
    read_drawio dec xo
        (.ok (.mxfile [{ name := some nm, text := some p, nested := none }])) =
      .ok (.ok (finishDrawio [⟨nm, g⟩])) ∧
    read_drawio dec xo
        (.ok (.mxfile [{ name := some nm, text := some q, nested := none }])) =
      .ok (.ok (finishDrawio [⟨nm, g⟩])) := by
  have h1 : processDiagram dec xo []
      { name := some nm, text := some p, nested := none } = .ok [⟨nm, g⟩] := by
    simp only [processDiagram]
    rw [if_pos hp]
    simp only [decode_drawio_data, hfail, Option.getD_none, hxml, hparse,
      Option.getD_some, List.nil_append]
  have h2 : processDiagram dec xo []
      { name := some nm, text := some q, nested := none } = .ok [⟨nm, g⟩] := by
    simp only [processDiagram]
    rw [if_pos hq]
    simp only [decode_drawio_data, hchain, Option.getD_some, hxml', hparse,
      List.nil_append]
  constructor
  · simp only [read_drawio, List.foldlM_cons, List.foldlM_nil, h1, exceptBind_ok]
    rfl
  · simp only [read_drawio, List.foldlM_cons, List.foldlM_nil, h2, exceptBind_ok]
    rfl

/-! ## Excalidraw (whiteboard-JSON) model

`ExElement` carries the JSON keys `_read_excalidraw` reads and
`_create_excalidraw_json` writes.  The randomly seeded fields (`seed`,
`versionNonce`) and the `updated` timestamp are omitted: no parser and no
verified property observes them.  A key stored with JSON `null` is modelled
like an absent key (`none`); every use site reads these keys through
`dict.get` and treats the two identically. -/

/-- A `startBinding`/`endBinding` object. -/
structure ExBinding where
  elementId : Option String := none
  focus : Option ℚ := none
  gap : Option ℚ := none
  deriving Repr, DecidableEq

/-- An entry of a `boundElements` list (`{"type": ..., "id": ...}`). -/
structure BoundRef where
  btype : String
  id : Option String := none
  deriving Repr, DecidableEq

/-- One element of the `elements` array of an Excalidraw file. -/
structure ExElement where
  etype : Option String := none        -- the "type" key
  id : Option String := none
  x : Option ℚ := none
  y : Option ℚ := none
  width : Option ℚ := none
  height : Option ℚ := none
  text : Option String := none
  fontSize : Option ℚ := none
  fontFamily : Option ℚ := none
  textAlign : Option String := none
  verticalAlign : Option String := none
  strokeColor : Option String := none
  backgroundColor : Option String := none
  fillStyle : Option String := none
  strokeWidth : Option ℚ := none
  strokeStyle : Option String := none
  roughness : Option ℚ := none
  opacity : Option ℚ := none
  angle : Option ℚ := none
  roundness : Option Nat := none       -- the `{"type": k}` object, holding `k`
  isDeleted : Option Bool := none
  groupIds : Option (List String) := none
  frameId : Option String := none
  boundElements : Option (List BoundRef) := none
  link : Option String := none
  locked : Option Bool := none
  containerId : Option String := none
  originalText : Option String := none
  autoResize : Option Bool := none
  lineHeight : Option ℚ := none
  points : Option (List Pt) := none
  startBinding : Option ExBinding := none
  endBinding : Option ExBinding := none
  startArrowhead : Option String := none
  endArrowhead : Option String := none
  elbowed : Option Bool := none
  deriving Repr, DecidableEq

/-- A node dictionary of `_read_excalidraw`'s result (the `text` branch sets
`text`; the shape branch sets the colours and `boundElements`). -/
structure ExNode where
  id : String
  ntype : String
  text : Option String := none
  x : ℚ
  y : ℚ
  width : ℚ
  height : ℚ
  backgroundColor : Option String := none
  strokeColor : Option String := none
  boundElements : Option (List BoundRef) := none
  deriving Repr, DecidableEq

/-- An edge dictionary of `_read_excalidraw`'s result. -/
structure ExEdge where
  id : String
  ntype : String
  source : Option String
  target : Option String
  points : List Pt
  deriving Repr, DecidableEq

structure ExParsed where
  nodes : List ExNode := []
  edges : List ExEdge := []
  text_content : List String := []
  deriving Repr, DecidableEq

/-- One iteration of the `for elem in elements` loop of `_read_excalidraw`. -/
def exParseStep (acc : ExParsed) (el : ExElement) : ExParsed :=
  let t := el.etype.getD ""
  let eid := el.id.getD ""
  if t = "arrow" ∨ t = "line" then
    { acc with
      edges := acc.edges ++
        [{ id := eid, ntype := t, source := el.startBinding.bind (·.elementId),
           target := el.endBinding.bind (·.elementId), points := el.points.getD [] }] }
  else if t = "text" then
    let tx := el.text.getD ""
    if tx ≠ "" then
      { acc with
        text_content := acc.text_content ++ [tx]
        nodes := acc.nodes ++
          [{ id := eid, ntype := t, text := some tx, x := el.x.getD 0, y := el.y.getD 0,
             width := el.width.getD 0, height := el.height.getD 0 }] }
    else acc
  else
    { acc with
      nodes := acc.nodes ++
        [{ id := eid, ntype := t, x := el.x.getD 0, y := el.y.getD 0,
           width := el.width.getD 0, height := el.height.getD 0,
           backgroundColor := el.backgroundColor, strokeColor := el.strokeColor,
           boundElements := some (el.boundElements.getD []) }] }

/-- The element classification of `_read_excalidraw`. -/
def read_excalidraw_elements (els : List ExElement) : ExParsed :=
  els.foldl exParseStep {}

/-- An Excalidraw file as `json.loads` delivers it (the keys the parser
reads). -/
structure ExFile where
  elements : List ExElement := []
  version : Option ℚ := none

/-- The success dictionary of `_read_excalidraw` (`app_state` is an opaque
pass-through of `data.get('appState', {})` and is not modelled). -/
structure ExReadResult where
  nodes : List ExNode
  edges : List ExEdge
  text_content : List String
  element_count : Nat
  node_count : Nat
  edge_count : Nat
  deriving Repr, DecidableEq

inductive ExReadOutcome
  | parseError (msg : String)
  | ok (r : ExReadResult)
  deriving Repr, DecidableEq

def finishEx (els : List ExElement) : ExReadResult :=
  let p := read_excalidraw_elements els
  { nodes := p.nodes, edges := p.edges, text_content := p.text_content,
    element_count := els.length, node_count := p.nodes.length,
    edge_count := p.edges.length }

/-- `_read_excalidraw(file_path)`, with the outcome of `json.loads(content)`
as input (`.error` = `json.JSONDecodeError`). -/
def read_excalidraw (content : Except String ExFile) : ExReadOutcome :=
  match content with
  | .error e => .parseError ("Invalid JSON: " ++ e)
  | .ok f => .ok (finishEx f.elements)

/-- The node dictionary produced by `_read_excalidraw`, as `diagram_convert`
hands it to a generator.  (The parsed dict also carries `boundElements`,
which no generator reads.) -/
def ExNode.toPy (n : ExNode) : PyNode :=
  { id := some n.id
    ntype := some n.ntype
    text := n.text
    x := some n.x
    y := some n.y
    width := some n.width
    height := some n.height
    backgroundColor := n.backgroundColor
    strokeColor := n.strokeColor }

/-- The edge dictionary produced by `_read_excalidraw`, as `diagram_convert`
hands it to a generator.  (The parsed dict also carries a `type` key, which no
generator reads.) -/
def ExEdge.toPy (e : ExEdge) : PyEdge :=
  { id := some e.id
    source := e.source
    target := e.target
    points := some e.points }

/-- The `.excalidraw → .drawio` path of `diagram_convert`: read the source,
flatten, and feed the node/edge dictionaries to `_create_drawio_xml`. -/
def convertExToDrawio (f : ExFile) : DrawioXml :=
  let r := finishEx f.elements
  create_drawio_xml (r.nodes.map ExNode.toPy) (r.edges.map ExEdge.toPy) "Page-1"

/-! ## C2: whiteboard-JSON → compressed-graph-XML conversion of a "Hello" node

The Excalidraw parser stores a text element's content under the `text` key,
but `_create_drawio_xml` reads only `node.get('label', '')` (unlike
`_create_svg` and `_create_excalidraw_json`, which read
`node.get('label', node.get('text', ''))`), so the label is dropped. -/

/-- An Excalidraw document containing exactly one Node labelled "Hello" and no
Edges. -/
def helloFile : ExFile :=
  { elements := [{ etype := some "text", id := some "n1", text := some "Hello",
                   x := some 100, y := some 100, width := some 50, height := some 25 }] }

/-- C2 (evaluation at the failing input): converting `helloFile` from the
whiteboard-JSON format to the compressed-graph-XML format yields the two root
cells plus exactly one vertex cell — but that cell's `value` is `""`, not
`"Hello"`; no cell carries `value="Hello"`.  (No edge cells, as claimed.) -/
theorem excalidraw_hello_to_drawio_loses_label :
    ∃ cs : List MxCell,
      convertExToDrawio helloFile =
        .mxfile [{ name := some "Page-1", text := none, nested := some cs }] ∧
      cs.map (fun c => c.value) = [none, none, some ""] ∧
      cs.countP (fun c => c.value = some "Hello") = 0 ∧
      cs.countP (fun c => c.vertex = some "1") = 1 ∧
      cs.countP (fun c => c.edge = some "1") = 0 := by
  refine ⟨_, rfl, ?_, ?_, ?_, ?_⟩ <;> rfl

/-! ## C8: parser exception behaviour -/

/-- A decode oracle on which every decode stage fails. -/
def failingDec : DecodeOracle :=
  { urlDecode := id, b64decode := fun _ => none, inflate := fun _ => none,
    utf8decode := fun _ => none }

/-- An XML oracle that always reports `ParseError`. -/
def failingXo : XmlOracle := { fromstring := fun _ => none }

/-- A vertex cell whose geometry `x` attribute is not numeric: `float("abc")`
raises `ValueError`. -/
def badGeoCell : MxCell :=
  { id := some "a", value := some "X", geometry := some { x := some (.raw "abc") } }

/-- C8 (counterexample): the draw.io parser does *not* always return a tagged
result — on a bare `mxGraphModel` document whose cell geometry has a
non-numeric `x` attribute, the `float()` call raises `ValueError` past
`_read_drawio` into its caller (only the tool-level catch-all stops it). -/
theorem drawio_parser_raises_on_bad_geometry :
    read_drawio failingDec failingXo (.ok (.mxGraphModel [badGeoCell])) =
      .error "ValueError: could not convert string to float" := rfl

/-- All four geometry attributes of `g` convert with `float()`. -/
def geoOk (g : MxGeometry) : Bool :=
  (attrFloat g.x).isSome && (attrFloat g.y).isSome &&
    (attrFloat g.width).isSome && (attrFloat g.height).isSome

/-- The cell's geometry, if any, is numeric. -/
def cellOk (c : MxCell) : Bool :=
  match c.geometry with
  | none => true
  | some g => geoOk g

def cellsOk (cs : List MxCell) : Bool := cs.all cellOk

theorem parseGeo_ok {g : MxGeometry} (h : geoOk g = true) :
    ∃ gd, parseGeo g = .ok gd := by
  simp only [geoOk, Bool.and_eq_true, Option.isSome_iff_exists] at h
  obtain ⟨⟨⟨⟨x, hx⟩, y, hy⟩, w, hw⟩, hgt, hh⟩ := h
  exact ⟨⟨x, y, w, hgt⟩, by simp [parseGeo, hx, hy, hw, hh]⟩

theorem parseCell_ok (acc : DrawioGraph) (c : MxCell) (h : cellOk c = true) :
    ∃ acc', parseCell acc c = .ok acc' := by
  simp only [parseCell]
  split
  · exact ⟨acc, rfl⟩
  · split
    · exact ⟨_, rfl⟩
    · split
      · split
        · exact ⟨_, rfl⟩
        · next g hg =>
          have hgeo : geoOk g = true := by
            simpa only [cellOk, hg] using h
          obtain ⟨gd, hgd⟩ := parseGeo_ok hgeo
          rw [hgd]
          exact ⟨_, rfl⟩
      · exact ⟨acc, rfl⟩

theorem foldParse_ok :
    ∀ (cs : List MxCell) (acc : DrawioGraph), cellsOk cs = true →
      ∃ g, cs.foldlM parseCell acc = .ok g := by
  intro cs
  induction cs with
  | nil => exact fun acc _ => ⟨acc, rfl⟩
  | cons c rest ih =>
    intro acc h
    simp only [cellsOk, List.all_cons, Bool.and_eq_true] at h
    obtain ⟨acc', hc⟩ := parseCell_ok acc c h.1
    obtain ⟨g, hg⟩ := ih acc' (by simpa [cellsOk] using h.2)
    exact ⟨g, by rw [List.foldlM_cons, hc, exceptBind_ok, hg]⟩

theorem processDiagram_ok (dec : DecodeOracle) (xo : XmlOracle)
    (hxo : ∀ s cells, xo.fromstring s = some cells → cellsOk cells = true)
    (d : DiagramElem)
    (hd : ∀ cells, d.nested = some cells → cellsOk cells = true) :
    ∀ acc, ∃ acc', processDiagram dec xo acc d = .ok acc' := by
  intro acc
  have hfall : ∃ acc', nestedFallback acc (d.name.getD "Untitled") d = .ok acc' := by
    cases hn : d.nested with
    | none => exact ⟨acc, by simp [nestedFallback, hn]⟩
    | some cells =>
      obtain ⟨g, hg⟩ := foldParse_ok cells {} (hd cells hn)
      exact ⟨acc ++ [⟨d.name.getD "Untitled", g⟩],
        by simp [nestedFallback, hn, parse_drawio_mxgraphmodel, hg]⟩
  cases ht : d.text with
  | none => simpa only [processDiagram, ht] using hfall
  | some data =>
    by_cases hdata : data = ""
    · subst hdata
      simpa only [processDiagram, ht, ne_eq, not_true_eq_false, if_false,
        reduceIte] using hfall
    · cases hx : xo.fromstring (decode_drawio_data dec (pyStrip data)) with
      | none =>
        obtain ⟨acc', hacc'⟩ := hfall
        exact ⟨acc', by simp only [processDiagram, ht, hdata, ne_eq,
          not_false_eq_true, if_true, reduceIte, hx, hacc']⟩
      | some cells =>
        obtain ⟨g, hg⟩ := foldParse_ok cells {} (hxo _ cells hx)
        exact ⟨acc ++ [⟨d.name.getD "Untitled", g⟩],
          by simp only [processDiagram, ht, hdata, ne_eq,
            not_false_eq_true, if_true, reduceIte, hx, parse_drawio_mxgraphmodel, hg]⟩

/-- C8 (amended): each parser returns a tagged result for a syntactically
malformed container — invalid XML and invalid JSON both come back as an error
dictionary, not an exception — and the draw.io parser also returns a tagged
result whenever every geometry attribute in the document (including those
delivered by the payload decoder) is numeric.  Without that proviso it can
raise, as the counterexample shows. -/
theorem parsers_return_tagged_results
    (dec : DecodeOracle) (xo : XmlOracle) (e : String)
    (ds : List DiagramElem) (cs : List MxCell)
    (hxo : ∀ s cells, xo.fromstring s = some cells → cellsOk cells = true)
    (hds : ∀ d ∈ ds, ∀ cells, d.nested = some cells → cellsOk cells = true)
    (hcs : cellsOk cs = true) :
    read_drawio dec xo (.error e) = .ok (.parseError ("Invalid XML: " ++ e)) ∧
    read_excalidraw (.error e) = .parseError ("Invalid JSON: " ++ e) ∧
    (∃ g, parse_drawio_mxgraphmodel cs = .ok g) ∧
    (∃ out, read_drawio dec xo (.ok (.mxGraphModel cs)) = .ok out) ∧
    (∃ out, read_drawio dec xo (.ok (.mxfile ds)) = .ok out) := by
  obtain ⟨g, hg⟩ := foldParse_ok cs {} hcs
  refine ⟨rfl, rfl, ⟨g, hg⟩, ?_, ?_⟩
  · exact ⟨.ok (finishDrawio [⟨"Main", g⟩]),
      by simp only [read_drawio, parse_drawio_mxgraphmodel, hg]⟩
  · have hfold : ∀ (l : List DiagramElem), (∀ d ∈ l, ∀ cells, d.nested = some cells →
        cellsOk cells = true) →
        ∀ acc, ∃ out, l.foldlM (processDiagram dec xo) acc = .ok out := by
      intro l
      induction l with
      | nil => exact fun _ acc => ⟨acc, rfl⟩
      | cons d rest ih =>
        intro hl acc
        obtain ⟨acc', hacc'⟩ := processDiagram_ok dec xo hxo d
          (hl d (List.mem_cons_self d rest)) acc
        obtain ⟨out, hout⟩ := ih (fun d' hd' => hl d' (List.mem_cons_of_mem d hd')) acc'
        exact ⟨out, by rw [List.foldlM_cons, hacc', exceptBind_ok, hout]⟩
    obtain ⟨out, hout⟩ := hfold ds hds []
    exact ⟨.ok (finishDrawio out), by simp only [read_drawio, hout]⟩

/-! ## SVG generator (`_create_svg`)

The generated document is modelled as the list of its parts, one constructor
per kind of line `_create_svg` appends to `svg_parts`. -/

inductive SvgPart
  | header (viewWidth viewHeight : ℚ)
  | defsArrowhead
  | bgRect
  | ellipseP (cx cy rx ry : ℚ) (fill stroke : String)
  | polygonP (pts : List Pt) (fill stroke : String)
  | rectP (x y w h : ℚ) (fill stroke : String)
  | nodeLabel (x y : ℚ) (content : String)
  | lineP (x1 y1 x2 y2 : ℚ)
  | edgeLabel (x y : ℚ) (content : String)
  | footer
  deriving Repr, DecidableEq

/-- The parts emitted for the `i`-th node. -/
def svgNodeParts (min_x min_y : ℚ) (i : Nat) (n : PyNode) : List SvgPart :=
  let x := n.x.getD ((i : ℚ) * 150) - min_x + 50
  let y := n.y.getD 100 - min_y + 50
  let w := n.width.getD 120
  let h := n.height.getD 60
  let label := n.pyLabel
  let fill := n.backgroundColor.getD "#e1f5fe"
  let stroke := n.strokeColor.getD "#0288d1"
  let t := n.ntype.getD "rectangle"
  (if t = "ellipse" ∨ t = "circle" then
    [.ellipseP (x + w / 2) (y + h / 2) (w / 2) (h / 2) fill stroke]
   else if t = "diamond" then
    [.polygonP [(x + w / 2, y), (x + w, y + h / 2), (x + w / 2, y + h), (x, y + h / 2)]
      fill stroke]
   else [.rectP x y w h fill stroke]) ++
    (if label ≠ "" then [.nodeLabel (x + w / 2) (y + h / 2 + 5) label] else [])

/-- The key under which the `i`-th node is registered in `_create_svg`'s
`node_lookup` (`n.get('id', f'node-{i}')`). -/
def svgKey (i : Nat) (n : PyNode) : String := n.id.getD ("node-" ++ toString i)

def svgKeys (nodes : List PyNode) : List String := enumMap svgKey 0 nodes

/-- Dictionary lookup in `node_lookup` (a later node with the same key
shadows an earlier one). -/
def svgLookup (nodes : List PyNode) (s : String) : Option PyNode :=
  (((enumMap (fun i n => (svgKey i n, n)) 0 nodes).filter (fun p => p.1 = s)).getLast?).map
    (·.2)

/-- `source_id and source_id in node_lookup` (with the truthiness test). -/
def resolvesSvg (nodes : List PyNode) (o : Option String) : Option PyNode :=
  match o with
  | none => none
  | some s => if s = "" then none else svgLookup nodes s

/-- The parts emitted for one edge: a line (plus an optional label) when both
endpoints resolve, and nothing at all otherwise. -/
def svgEdgeParts (nodes : List PyNode) (min_x min_y : ℚ) (e : PyEdge) : List SvgPart :=
  let label := e.label.getD ""
  match resolvesSvg nodes e.source, resolvesSvg nodes e.target with
  | some src, some tgt =>
    let x1 := src.x.getD 0 - min_x + 50 + src.width.getD 120
    let y1 := src.y.getD 100 - min_y + 50 + src.height.getD 60 / 2
    let x2 := tgt.x.getD 0 - min_x + 50
    let y2 := tgt.y.getD 100 - min_y + 50 + tgt.height.getD 60 / 2
    [.lineP x1 y1 x2 y2] ++
      (if label ≠ "" then [.edgeLabel ((x1 + x2) / 2) ((y1 + y2) / 2 - 10) label] else [])
  | _, _ => []

/-- `_create_svg(nodes, edges, width=800, height=600)`. -/
def create_svg (nodes : List PyNode) (edges : List PyEdge)
    (width : ℚ := 800) (height : ℚ := 600) : List SvgPart :=
  let min_x := pyMin (nodes.map (fun n => n.x.getD 0)) 0
  let min_y := pyMin (nodes.map (fun n => n.y.getD 0)) 0
  let max_x := pyMax (nodes.map (fun n => n.x.getD 0 + n.width.getD 120)) width
  let max_y := pyMax (nodes.map (fun n => n.y.getD 0 + n.height.getD 60)) height
  let view_width := max width (max_x - min_x + 100)
  let view_height := max height (max_y - min_y + 100)
  [.header view_width view_height, .defsArrowhead, .bgRect] ++
    (enumMap (svgNodeParts min_x min_y) 0 nodes).flatten ++
    (edges.map (svgEdgeParts nodes min_x min_y)).flatten ++
    [.footer]

def isLine : SvgPart → Bool
  | .lineP _ _ _ _ => true
  | _ => false

theorem enumMap_fst (nodes : List PyNode) :
    ∀ i, (enumMap (fun i n => (svgKey i n, n)) i nodes).map Prod.fst =
      enumMap svgKey i nodes := by
  induction nodes with
  | nil => intro i; rfl
  | cons n rest ih => intro i; simp [enumMap, ih]

theorem svgLookup_none (nodes : List PyNode) (s : String)
    (h : ∀ k ∈ svgKeys nodes, s ≠ k) : svgLookup nodes s = none := by
  have : (enumMap (fun i n => (svgKey i n, n)) 0 nodes).filter (fun p => p.1 = s) = [] := by
    rw [List.filter_eq_nil_iff]
    intro p hp
    have hk : p.1 ∈ svgKeys nodes := by
      have := List.mem_map_of_mem Prod.fst hp
      rwa [enumMap_fst nodes 0] at this
    simp only [decide_eq_true_eq]
    exact fun hps => h p.1 hk hps.symm
  simp [svgLookup, this]

/-- C7: an Edge whose `source` id does not match any key of the SVG
generator's node lookup contributes no parts at all — in particular no
connecting line element — and a document all of whose edges have such dangling
sources contains no line element.  (`_create_svg` is a total function of its
inputs: generation never raises.) -/
theorem svg_dangling_source_produces_no_line :
    (∀ (nodes : List PyNode) (min_x min_y : ℚ) (e : PyEdge),
      (∀ s, e.source = some s → ∀ k ∈ svgKeys nodes, s ≠ k) →
      svgEdgeParts nodes min_x min_y e = []) ∧
    (∀ (nodes : List PyNode) (edges : List PyEdge) (w h : ℚ),
      (∀ e ∈ edges, ∀ s, e.source = some s → ∀ k ∈ svgKeys nodes, s ≠ k) →
      (create_svg nodes edges w h).countP isLine = 0) := by
  have part1 : ∀ (nodes : List PyNode) (min_x min_y : ℚ) (e : PyEdge),
      (∀ s, e.source = some s → ∀ k ∈ svgKeys nodes, s ≠ k) →
      svgEdgeParts nodes min_x min_y e = [] := by
    intro nodes min_x min_y e h
    have hres : resolvesSvg nodes e.source = none := by
      cases hs : e.source with
      | none => rfl
      | some s =>
        simp only [resolvesSvg]
        by_cases hse : s = ""
        · rw [if_pos hse]
        · rw [if_neg hse, svgLookup_none nodes s (h s hs)]
    simp only [svgEdgeParts, hres]
  refine ⟨part1, ?_⟩
  intro nodes edges w h hall
  have hpart : ∀ (mx my : ℚ) (i : Nat) (n : PyNode),
      (svgNodeParts mx my i n).countP isLine = 0 := by
    intro mx my i n
    simp only [svgNodeParts, List.countP_append]
    split
    · split <;> simp [isLine, List.countP_cons]
    · split
      · split <;> simp [isLine, List.countP_cons]
      · split <;> simp [isLine, List.countP_cons]
  have hnodes : ∀ (mx my : ℚ) (ns : List PyNode) (i : Nat),
      ((enumMap (svgNodeParts mx my) i ns).flatten).countP isLine = 0 := by
    intro mx my ns
    induction ns with
    | nil => intro i; rfl
    | cons n rest ih =>
      intro i
      simp only [enumMap, List.flatten_cons, List.countP_append, ih, hpart]
  have hedges : ∀ (mx my : ℚ) (es : List PyEdge),
      (∀ e ∈ es, ∀ s, e.source = some s → ∀ k ∈ svgKeys nodes, s ≠ k) →
      ((es.map (svgEdgeParts nodes mx my)).flatten).countP isLine = 0 := by
    intro mx my es
    induction es with
    | nil => intro _; rfl
    | cons e rest ih =>
      intro hes
      rw [List.map_cons, part1 nodes _ _ e (hes e (List.mem_cons_self e rest))]
      simp only [List.flatten_cons, List.countP_append, List.countP_nil, Nat.zero_add]
      exact ih (fun e' he' => hes e' (List.mem_cons_of_mem e he'))
  simp only [create_svg, List.countP_append, hnodes, hedges _ _ edges hall]
  simp [isLine, List.countP_cons]

/-! ## Excalidraw generator (`_create_excalidraw_json`)

`gen_id()` is modelled by a supply `ids : Nat → String` of fresh identifiers
consumed through a counter (the Python code draws random 21-character ids; no
verified property depends on their values). -/

/-- An entry of `arrow_bindings`: `(arrow_id, source_id, target_id)`. -/
structure ArrowBind where
  arrowId : String
  sourceId : String
  targetId : String
  deriving Repr, DecidableEq

/-- Generator state: the `elements` list, the `element_map` (id → index of the
element in `elements`; insertions cons on the front so that a later node with
the same id shadows an earlier one, like a dict overwrite), the pending
`arrow_bindings`, and the fresh-id counter. -/
structure GenSt where
  elements : List ExElement := []
  emap : List (String × Nat) := []
  binds : List ArrowBind := []
  ctr : Nat := 0

/-- Lines 625–630: font size for a bound node label (note the second branch is
unreachable, since `len > 50` implies `len > 30`). -/
def nodeFontSize (n : PyNode) (label : String) : ℚ :=
  let base := n.fontSize.getD 16
  if label.length > 30 then min base 12
  else if label.length > 50 then min base 10
  else base

/-- The standalone text element emitted for a `type="text"` node
(lines 546–579). -/
def genTextNodeElem (i : Nat) (elem_id : String) (n : PyNode) (label : String) :
    ExElement :=
  { id := some elem_id, etype := some "text",
    x := some (n.x.getD ((i : ℚ) * 150)), y := some (n.y.getD 100),
    width := some (n.width.getD 100), height := some (n.height.getD 25),
    text := some label, fontSize := some (n.fontSize.getD 16), fontFamily := some 1,
    textAlign := some "center", verticalAlign := some "middle",
    strokeColor := some (n.strokeColor.getD "#1e1e1e"),
    backgroundColor := some "transparent", fillStyle := some "solid",
    strokeWidth := some 1, roughness := some 1, opacity := some 100,
    angle := some 0, isDeleted := some false, groupIds := some [], frameId := none,
    boundElements := some [], link := none, locked := some false,
    containerId := none, originalText := some label, autoResize := some true,
    lineHeight := some (5/4) }

/-- The shape element emitted for a non-text node (lines 587–614). -/
def genShapeElem (i : Nat) (elem_id : String) (node_type : String) (n : PyNode)
    (text_id : Option String) : ExElement :=
  { id := some elem_id, etype := some node_type,
    x := some (n.x.getD ((i : ℚ) * 150)), y := some (n.y.getD 100),
    width := some (n.width.getD 120), height := some (n.height.getD 60),
    strokeColor := some (n.strokeColor.getD "#1e1e1e"),
    backgroundColor := some (n.backgroundColor.getD "transparent"),
    fillStyle := some (n.fillStyle.getD "solid"),
    strokeWidth := some (n.strokeWidth.getD 2),
    roughness := some (n.roughness.getD 1), opacity := some 100, angle := some 0,
    isDeleted := some false, strokeStyle := some (n.strokeStyle.getD "solid"),
    groupIds := some [], frameId := none,
    roundness := if n.rounded.getD true ∧ node_type = "rectangle" then some 3 else none,
    boundElements := some (match text_id with
      | some t => [{ btype := "text", id := some t }]
      | none => []),
    link := none, locked := some false }

/-- The bound text element emitted for a labelled shape (lines 633–666). -/
def genBoundTextElem (i : Nat) (elem_id text_id : String) (n : PyNode)
    (label : String) : ExElement :=
  { id := some text_id, etype := some "text",
    x := some (n.x.getD ((i : ℚ) * 150)), y := some (n.y.getD 100),
    width := some (n.width.getD 120), height := some (n.height.getD 60),
    text := some label, fontSize := some (nodeFontSize n label), fontFamily := some 1,
    textAlign := some "center", verticalAlign := some "middle",
    strokeColor := some (n.textColor.getD "#1e1e1e"),
    backgroundColor := some "transparent", fillStyle := some "solid",
    strokeWidth := some 1, roughness := some 1, opacity := some 100,
    angle := some 0, isDeleted := some false, groupIds := some [], frameId := none,
    boundElements := some [], link := none, locked := some false,
    containerId := some elem_id, originalText := some label,
    autoResize := some true, lineHeight := some (5/4) }

/-- One iteration of the node loop (lines 540–667). -/
def addNode (ids : Nat → String) (st : GenSt) (i : Nat) (n : PyNode) : GenSt :=
  let elem_id := match n.id with
    | some s => s
    | none => ids st.ctr
  let ctr := match n.id with
    | some _ => st.ctr
    | none => st.ctr + 1
  let node_type := n.ntype.getD "rectangle"
  let label := n.pyLabel
  if node_type = "text" then
    { st with
      elements := st.elements ++ [genTextNodeElem i elem_id n label]
      emap := (elem_id, st.elements.length) :: st.emap
      ctr := ctr }
  else
    let text_id : Option String := if label ≠ "" then some (elem_id ++ "_text") else none
    let st1 : GenSt :=
      { st with
        elements := st.elements ++ [genShapeElem i elem_id node_type n text_id]
        emap := (elem_id, st.elements.length) :: st.emap
        ctr := ctr }
    match text_id with
    | none => st1
    | some tid => { st1 with elements := st1.elements ++ [genBoundTextElem i elem_id tid n label] }

def addNodes (ids : Nat → String) : GenSt → Nat → List PyNode → GenSt
  | st, _, [] => st
  | st, i, n :: rest => addNodes ids (addNode ids st i n) (i + 1) rest

/-- `node_lookup = {n.get('id'): n for n in nodes if n.get('id')}` followed by
`source_id and source_id in node_lookup` — lookup of a truthy id, later nodes
shadowing earlier ones. -/
def nodeLookup (nodes : List PyNode) (o : Option String) : Option PyNode :=
  match o with
  | some s => if s = "" then none else (nodes.filter (fun n => n.id = some s)).getLast?
  | none => none

/-- Everything one iteration of the edge loop (lines 673–884) emits: the arrow
element, the optional edge-label text element, and the new `arrow_bindings`
entries.  `freshA` is the id `gen_id()` would produce for a missing edge id,
`freshT` the one for the label text element. -/
structure EdgeOut where
  arrow : ExElement
  labelElem : Option ExElement
  binds : List ArrowBind
  deriving Repr, DecidableEq

/-- Lines 766–774: the waypoints generated for an edge without explicit
points, from its `curveStyle`/`curveDirection`. -/
def genEdgePoints (e : PyEdge) (end_dx end_dy : ℚ) : List Pt :=
  let cs := e.curveStyle.getD "straight"
  if cs = "curved" then
    generate_curved_points end_dx end_dy (e.curveDirection.getD "auto")
  else if cs = "step" then generate_step_points end_dx end_dy
  else [(0, 0), (end_dx, end_dy)]

def edgeGen (nodes : List PyNode) (e : PyEdge) (freshA freshT : String) : EdgeOut :=
  let arrow_id := e.id.getD freshA
  let edge_label := e.label.getD ""
  let points0 := e.points.getD [((0 : ℚ), (0 : ℚ)), (100, 0)]
  let src? := nodeLookup nodes e.source
  let tgt? := nodeLookup nodes e.target
  -- (arrow_x, arrow_y, points, dx, dy) after the first resolved-endpoints block
  let comp : ℚ × ℚ × List Pt × ℚ × ℚ :=
    match src?, tgt? with
    | some src, some tgt =>
      let src_x := src.x.getD 0
      let src_y := src.y.getD 0
      let src_w := src.width.getD 120
      let src_h := src.height.getD 60
      let tgt_x := tgt.x.getD 0
      let tgt_y := tgt.y.getD 0
      let tgt_w := tgt.width.getD 120
      let tgt_h := tgt.height.getD 60
      let src_cx := src_x + src_w / 2
      let src_cy := src_y + src_h / 2
      let tgt_cx := tgt_x + tgt_w / 2
      let tgt_cy := tgt_y + tgt_h / 2
      let dx := tgt_cx - src_cx
      let dy := tgt_cy - src_cy
      let s := resolveStartAnchor src_x src_y src_w src_h dx dy e.startSide
      let t := resolveEndAnchor tgt_x tgt_y tgt_w tgt_h dx dy e.endSide
      let end_dx := t.1 - s.1
      let end_dy := t.2 - s.2
      let pts := if e.pointsTruthy then points0 else genEdgePoints e end_dx end_dy
      (s.1, s.2, pts, dx, dy)
    | _, _ => (e.x.getD 0, e.y.getD 130, points0, 0, 0)
  let arrow_x := comp.1
  let arrow_y := comp.2.1
  let points := comp.2.2.1
  let dx := comp.2.2.2.1
  let dy := comp.2.2.2.2
  let edge_text_id := if edge_label ≠ "" then some freshT else none
  let stroke_style := e.strokeStyle.getD "solid"
  -- bindings (lines 786–804)
  let bound : Option ExBinding × Option ExBinding × List ArrowBind :=
    match src?, tgt? with
    | some _, some _ =>
      let start_focus : ℚ :=
        if |dx| > |dy| then (if dx > 0 then 1/2 else -(1/2))
        else (if dy > 0 then 1/2 else -(1/2))
      let end_focus : ℚ :=
        if |dx| > |dy| then (if dx > 0 then -(1/2) else 1/2)
        else (if dy > 0 then -(1/2) else 1/2)
      (some { elementId := e.source, focus := some start_focus, gap := some 8 },
       some { elementId := e.target, focus := some end_focus, gap := some 8 },
       [{ arrowId := arrow_id, sourceId := e.source.getD "", targetId := e.target.getD "" }])
    | _, _ => (none, none, [])
  let curve_style := e.curveStyle.getD "straight"
  let is_curved := curve_style = "curved" ∨ points.length > 2
  let arrow : ExElement :=
    { id := some arrow_id, etype := some "arrow",
      x := some arrow_x, y := some arrow_y,
      width := some (match points.getLast? with | some p => |p.1| | none => 100),
      height := some (match points.getLast? with | some p => |p.2| | none => 0),
      strokeColor := some (e.strokeColor.getD "#1e1e1e"),
      backgroundColor := some "transparent", fillStyle := some "solid",
      strokeWidth := some (e.strokeWidth.getD 2), roughness := some 1,
      opacity := some 100, angle := some 0, isDeleted := some false,
      strokeStyle := some stroke_style, groupIds := some [], frameId := none,
      roundness := if is_curved then some 2 else none,
      boundElements := some (match edge_text_id with
        | some t => [{ btype := "text", id := some t }]
        | none => []),
      link := none, locked := some false,
      points := some points,
      startBinding := bound.1, endBinding := bound.2.1,
      startArrowhead := e.startArrowhead,
      endArrowhead := some (e.endArrowhead.getD "arrow"),
      elbowed := some false }
  let labelElem : Option ExElement :=
    match edge_text_id with
    | none => none
    | some tid =>
      let mid_x := match points.getLast? with
        | some p => arrow_x + p.1 / 2
        | none => arrow_x + 50
      let mid_y := match points.getLast? with
        | some p => arrow_y + p.2 / 2 - 15
        | none => arrow_y - 15
      some { id := some tid, etype := some "text",
             x := some mid_x, y := some mid_y,
             width := some ((edge_label.length : ℚ) * 8), height := some 20,
             text := some edge_label, fontSize := some 14, fontFamily := some 1,
             textAlign := some "center", verticalAlign := some "middle",
             strokeColor := some "#1e1e1e", backgroundColor := some "transparent",
             fillStyle := some "solid", strokeWidth := some 1, roughness := some 1,
             opacity := some 100, angle := some 0, isDeleted := some false,
             groupIds := some [], frameId := none, boundElements := some [],
             link := none, locked := some false, containerId := some arrow_id,
             originalText := some edge_label, autoResize := some true,
             lineHeight := some (5/4) }
  { arrow := arrow, labelElem := labelElem, binds := bound.2.2 }

/-- One iteration of the edge loop, threading state. -/
def addEdge (nodes : List PyNode) (ids : Nat → String) (st : GenSt) (e : PyEdge) :
    GenSt :=
  let c1 := match e.id with
    | some _ => st.ctr
    | none => st.ctr + 1
  let c2 := if e.label.getD "" ≠ "" then c1 + 1 else c1
  let out := edgeGen nodes e (ids st.ctr) (ids c1)
  { st with
    elements := st.elements ++ [out.arrow] ++
      (match out.labelElem with | some t => [t] | none => [])
    binds := st.binds ++ out.binds
    ctr := c2 }

def addEdges (nodes : List PyNode) (ids : Nat → String) : GenSt → List PyEdge → GenSt
  | st, [] => st
  | st, e :: rest => addEdges nodes ids (addEdge nodes ids st e) rest

/-- `lst[i] = f lst[i]`, leaving the list unchanged when out of range. -/
def listModify (l : List α) (i : Nat) (f : α → α) : List α :=
  match l, i with
  | [], _ => []
  | a :: rest, 0 => f a :: rest
  | a :: rest, n + 1 => a :: listModify rest n f

/-- `element_map[id]["boundElements"].append({"type": "arrow", "id": arrow_id})`. -/
def appendArrowRef (aid : String) (el : ExElement) : ExElement :=
  { el with boundElements := some (el.boundElements.getD [] ++
      [{ btype := "arrow", id := some aid }]) }

/-- One iteration of the back-reference pass (lines 887–891). -/
def applyBind (emap : List (String × Nat)) (els : List ExElement) (b : ArrowBind) :
    List ExElement :=
  let els1 :=
    if b.sourceId ≠ "" then
      match emap.find? (fun p => p.1 = b.sourceId) with
      | some p => listModify els p.2 (appendArrowRef b.arrowId)
      | none => els
    else els
  if b.targetId ≠ "" then
    match emap.find? (fun p => p.1 = b.targetId) with
    | some p => listModify els1 p.2 (appendArrowRef b.arrowId)
    | none => els1
  else els1

def applyBinds (emap : List (String × Nat)) : List ExElement → List ArrowBind → List ExElement
  | els, [] => els
  | els, b :: rest => applyBinds emap (applyBind emap els b) rest

/-- `_create_excalidraw_json(nodes, edges)`: the elements array of the
generated document. -/
def create_excalidraw_elements (nodes : List PyNode) (edges : List PyEdge)
    (ids : Nat → String) : List ExElement :=
  let st1 := addNodes ids {} 0 nodes
  let st2 := addEdges nodes ids st1 edges
  applyBinds st2.emap st2.elements st2.binds

/-- The generated document as the Excalidraw parser would re-read it. -/
def create_excalidraw_json (nodes : List PyNode) (edges : List PyEdge)
    (ids : Nat → String) : ExFile :=
  { elements := create_excalidraw_elements nodes edges ids, version := some 2 }

/-! ## C3: the edge-label text element -/

/-- A 60-character edge label. -/
def longLabel : String := "aaaaaaaaaaaaaaaaaaaaaaaaaaaaaaaaaaaaaaaaaaaaaaaaaaaaaaaaaaaa"

def edgeWithLongLabel : PyEdge := { id := some "E1", label := some longLabel }

def edgeWithShortLabel : PyEdge := { id := some "E2", label := some "short" }

/-- C3 (counterexample): the font size of the emitted edge-label text element
is *not* reduced when the label length exceeds 30 (or 50) characters — it is
the constant 14 for a 60-character label just as for a 5-character one.  (The
>30/>50 reduction exists only for node bound labels, in `nodeFontSize`.) -/
theorem edge_label_font_size_constant :
    longLabel.length = 60 ∧ ("short" : String).length = 5 ∧
    (edgeGen [] edgeWithLongLabel "f1" "f2").labelElem.map (·.fontSize) =
      some (some 14) ∧
    (edgeGen [] edgeWithShortLabel "f1" "f2").labelElem.map (·.fontSize) =
      some (some 14) :=
  ⟨rfl, rfl, rfl, rfl⟩

/-- C3 (amended): for every Edge with a non-empty label, the whiteboard
generator emits a third text element carrying the label, linked to the arrow
via the container relation (`containerId` = the arrow's id, and the arrow's
`boundElements` references the text element), positioned at the midpoint of
the chord to the last waypoint (with a fixed −15 vertical offset); its font
size is the constant 14 regardless of label length. -/
theorem edge_label_element_spec (nodes : List PyNode) (e : PyEdge)
    (freshA freshT : String) (l : String) (hlab : e.label = some l) (hne : l ≠ "") :
    ∃ t,
      (edgeGen nodes e freshA freshT).labelElem = some t ∧
      t.text = some l ∧
      t.fontSize = some 14 ∧
      t.id = some freshT ∧
      t.containerId = (edgeGen nodes e freshA freshT).arrow.id ∧
      (edgeGen nodes e freshA freshT).arrow.boundElements =
        some [{ btype := "text", id := some freshT }] ∧
      t.x = (edgeGen nodes e freshA freshT).arrow.x.map (fun ax =>
        match ((edgeGen nodes e freshA freshT).arrow.points.getD []).getLast? with
        | some p => ax + p.1 / 2
        | none => ax + 50) ∧
      t.y = (edgeGen nodes e freshA freshT).arrow.y.map (fun ay =>
        match ((edgeGen nodes e freshA freshT).arrow.points.getD []).getLast? with
        | some p => ay + p.2 / 2 - 15
        | none => ay - 15) := by
  rcases hsrc : nodeLookup nodes e.source with _ | src <;>
    rcases htgt : nodeLookup nodes e.target with _ | tgt <;>
    simp only [edgeGen, hlab, hsrc, htgt, Option.getD_some, ne_eq, hne,
      not_false_eq_true, if_true, reduceIte] <;>
    (refine ⟨_, rfl, ?_, ?_, ?_, ?_, ?_, ?_, ?_⟩ <;> trivial)

/-! ## C6: waypoints and anchors -/

/-- `dx`: the centre-to-centre horizontal travel distance (lines 702–707). -/
def boxDx (src tgt : PyNode) : ℚ :=
  (tgt.x.getD 0 + tgt.width.getD 120 / 2) - (src.x.getD 0 + src.width.getD 120 / 2)

def boxDy (src tgt : PyNode) : ℚ :=
  (tgt.y.getD 0 + tgt.height.getD 60 / 2) - (src.y.getD 0 + src.height.getD 60 / 2)

/-- The start anchor the generator computes for an edge between `src` and
`tgt`. -/
def startAnchorOf (src tgt : PyNode) (side : Option String) : Pt :=
  resolveStartAnchor (src.x.getD 0) (src.y.getD 0) (src.width.getD 120)
    (src.height.getD 60) (boxDx src tgt) (boxDy src tgt) side

/-- The end anchor the generator computes for an edge between `src` and
`tgt`. -/
def endAnchorOf (src tgt : PyNode) (side : Option String) : Pt :=
  resolveEndAnchor (tgt.x.getD 0) (tgt.y.getD 0) (tgt.width.getD 120)
    (tgt.height.getD 60) (boxDx src tgt) (boxDy src tgt) side

theorem resolveStartAnchor_onBoundary (sx sy sw sh dx dy : ℚ) (side : Option String)
    (hw : 0 ≤ sw) (hh : 0 ≤ sh) :
    onBoundary sx sy sw sh (resolveStartAnchor sx sy sw sh dx dy side) := by
  unfold resolveStartAnchor onBoundary
  split_ifs <;> refine ⟨?_, ?_, ?_, ?_, ?_⟩ <;> simp <;> linarith

theorem resolveEndAnchor_onBoundary (tx ty tw th dx dy : ℚ) (side : Option String)
    (hw : 0 ≤ tw) (hh : 0 ≤ th) :
    onBoundary tx ty tw th (resolveEndAnchor tx ty tw th dx dy side) := by
  unfold resolveEndAnchor onBoundary
  split_ifs <;> refine ⟨?_, ?_, ?_, ?_, ?_⟩ <;> simp <;> linarith

theorem genEdgePoints_head_last (e : PyEdge) (dx dy : ℚ) :
    (genEdgePoints e dx dy).head? = some (0, 0) ∧
      (genEdgePoints e dx dy).getLast? = some (dx, dy) := by
  simp only [genEdgePoints, generate_curved_points, generate_step_points]
  split_ifs <;> exact ⟨rfl, rfl⟩

/-- C6: for an Edge whose `source` and `target` both resolve to existing
Nodes (and whose boxes have non-negative extent): when the caller supplied no
explicit waypoints, the generated arrow is positioned at the computed start
anchor, its waypoint sequence starts at the relative offset `(0,0)` (i.e. at
the start anchor) and ends at the offset reaching the computed end anchor,
and both anchors lie on the respective Node's boundary; when the caller
supplied explicit (non-empty) waypoints, they are used verbatim. -/
theorem edge_waypoints_anchors (nodes : List PyNode) (e : PyEdge)
    (freshA freshT : String) (src tgt : PyNode)
    (hsrc : nodeLookup nodes e.source = some src)
    (htgt : nodeLookup nodes e.target = some tgt)
    (hsw : 0 ≤ src.width.getD 120) (hsh : 0 ≤ src.height.getD 60)
    (htw : 0 ≤ tgt.width.getD 120) (hth : 0 ≤ tgt.height.getD 60) :
    (e.pointsTruthy = false →
      (edgeGen nodes e freshA freshT).arrow.x =
        some (startAnchorOf src tgt e.startSide).1 ∧
      (edgeGen nodes e freshA freshT).arrow.y =
        some (startAnchorOf src tgt e.startSide).2 ∧
      (edgeGen nodes e freshA freshT).arrow.points =
        some (genEdgePoints e
          ((endAnchorOf src tgt e.endSide).1 - (startAnchorOf src tgt e.startSide).1)
          ((endAnchorOf src tgt e.endSide).2 - (startAnchorOf src tgt e.startSide).2)) ∧
      (genEdgePoints e
          ((endAnchorOf src tgt e.endSide).1 - (startAnchorOf src tgt e.startSide).1)
          ((endAnchorOf src tgt e.endSide).2 -
            (startAnchorOf src tgt e.startSide).2)).head? = some (0, 0) ∧
      (genEdgePoints e
          ((endAnchorOf src tgt e.endSide).1 - (startAnchorOf src tgt e.startSide).1)
          ((endAnchorOf src tgt e.endSide).2 -
            (startAnchorOf src tgt e.startSide).2)).getLast? =
        some ((endAnchorOf src tgt e.endSide).1 - (startAnchorOf src tgt e.startSide).1,
          (endAnchorOf src tgt e.endSide).2 - (startAnchorOf src tgt e.startSide).2) ∧
      onBoundary (src.x.getD 0) (src.y.getD 0) (src.width.getD 120)
        (src.height.getD 60) (startAnchorOf src tgt e.startSide) ∧
      onBoundary (tgt.x.getD 0) (tgt.y.getD 0) (tgt.width.getD 120)
        (tgt.height.getD 60) (endAnchorOf src tgt e.endSide)) ∧
    (∀ ps, e.points = some ps → ps ≠ [] →
      (edgeGen nodes e freshA freshT).arrow.points = some ps) := by
  constructor
  · intro hpt
    refine ⟨?_, ?_, ?_, (genEdgePoints_head_last e _ _).1,
      (genEdgePoints_head_last e _ _).2,
      resolveStartAnchor_onBoundary _ _ _ _ _ _ _ hsw hsh,
      resolveEndAnchor_onBoundary _ _ _ _ _ _ _ htw hth⟩ <;>
      simp only [edgeGen, hsrc, htgt, hpt, Bool.false_eq_true, if_false, reduceIte,
        startAnchorOf, endAnchorOf, boxDx, boxDy]
  · intro ps hps hpe
    have hpt : e.pointsTruthy = true := by
      unfold PyEdge.pointsTruthy
      rw [hps]
      cases ps with
      | nil => exact absurd rfl hpe
      | cons a l => rfl
    simp only [edgeGen, hsrc, htgt, hpt, if_true, reduceIte, hps, Option.getD_some]

/-! ## C1: identity round trips

### draw.io half -/

theorem parse_drawio_node_cell (acc : DrawioGraph) (i : Nat) (n : DNode)
    (h0 : n.id ≠ "0") (h1 : n.id ≠ "1") :
    ∃ gd, parseCell acc (drawioNodeCell i (DNode.toPy n)) =
      .ok { acc with nodes := acc.nodes ++ [⟨n.id, n.label, n.style, some gd⟩] } := by
  simp only [parseCell, drawioNodeCell, DNode.toPy, Option.getD_some]
  rw [if_neg (by simp [h0, h1]), if_neg (by simp [truthy]), if_pos (Or.inr trivial)]
  exact ⟨_, rfl⟩

theorem parse_drawio_edge_cell (acc : DrawioGraph) (i : Nat) (e : DEdge)
    (h0 : e.id ≠ "0") (h1 : e.id ≠ "1") (hs : e.source ≠ "") (ht : e.target ≠ "") :
    parseCell acc (drawioEdgeCell i (DEdge.toPy e)) =
      .ok { acc with edges := acc.edges ++ [e] } := by
  simp only [parseCell, drawioEdgeCell, DEdge.toPy, Option.getD_some]
  rw [if_neg (by simp [h0, h1]), if_pos (by simp [truthy, hs, ht])]

theorem parse_drawio_node_cells (dns : List DNode)
    (hids : ∀ n ∈ dns, n.id ≠ "0" ∧ n.id ≠ "1") :
    ∀ (i : Nat) (acc : DrawioGraph),
      ∃ ns', (enumMap drawioNodeCell i (dns.map DNode.toPy)).foldlM parseCell acc =
          .ok { acc with nodes := acc.nodes ++ ns' } ∧
        ns'.map (fun n => (n.id, n.label, n.style)) =
          dns.map (fun n => (n.id, n.label, n.style)) := by
  induction dns with
  | nil =>
    intro i acc
    refine ⟨[], ?_, rfl⟩
    rw [List.append_nil]
    rfl
  | cons n rest ih =>
    intro i acc
    obtain ⟨h0, h1⟩ := hids n (List.mem_cons_self n rest)
    obtain ⟨gd, hcell⟩ := parse_drawio_node_cell acc i n h0 h1
    obtain ⟨ns', hfold, hproj⟩ :=
      ih (fun m hm => hids m (List.mem_cons_of_mem n hm)) (i + 1)
        { acc with nodes := acc.nodes ++ [⟨n.id, n.label, n.style, some gd⟩] }
    refine ⟨⟨n.id, n.label, n.style, some gd⟩ :: ns', ?_, ?_⟩
    · rw [List.map_cons, enumMap, List.foldlM_cons, hcell, exceptBind_ok, hfold]
      simp
    · simp [hproj]

theorem parse_drawio_edge_cells (des : List DEdge)
    (hids : ∀ e ∈ des, e.id ≠ "0" ∧ e.id ≠ "1" ∧ e.source ≠ "" ∧ e.target ≠ "") :
    ∀ (i : Nat) (acc : DrawioGraph),
      (enumMap drawioEdgeCell i (des.map DEdge.toPy)).foldlM parseCell acc =
        .ok { acc with edges := acc.edges ++ des } := by
  induction des with
  | nil =>
    intro i acc
    rw [List.append_nil]
    rfl
  | cons e rest ih =>
    intro i acc
    rw [List.map_cons, enumMap, List.foldlM_cons,
      parse_drawio_edge_cell acc i e (hids e (List.mem_cons_self e rest)).1
        (hids e (List.mem_cons_self e rest)).2.1
        (hids e (List.mem_cons_self e rest)).2.2.1
        (hids e (List.mem_cons_self e rest)).2.2.2, exceptBind_ok,
      ih (fun m hm => hids m (List.mem_cons_of_mem e hm)) (i + 1)]
    simp

/-- The draw.io half of the C1 round trip: re-reading the generated document
yields one diagram whose edges are preserved *exactly* (id, endpoints, label
and style) and whose nodes preserve id, label and style (geometry is
re-derived from the generated defaults when the source carried none). -/
theorem drawio_roundtrip (dec : DecodeOracle) (xo : XmlOracle)
    (dns : List DNode) (des : List DEdge) (name : String)
    (hn : ∀ n ∈ dns, n.id ≠ "0" ∧ n.id ≠ "1")
    (he : ∀ e ∈ des, e.id ≠ "0" ∧ e.id ≠ "1" ∧ e.source ≠ "" ∧ e.target ≠ "") :
    ∃ g, read_drawio dec xo
        (.ok (create_drawio_xml (dns.map DNode.toPy) (des.map DEdge.toPy) name)) =
        .ok (.ok (finishDrawio [⟨name, g⟩])) ∧
      g.nodes.map (fun n => (n.id, n.label, n.style)) =
        dns.map (fun n => (n.id, n.label, n.style)) ∧
      g.edges = des := by
  obtain ⟨ns', hnodes, hproj⟩ := parse_drawio_node_cells dns hn 0
    { nodes := [], edges := [] }
  have hedges := parse_drawio_edge_cells des he 0
    { nodes := [] ++ ns', edges := [] }
  refine ⟨{ nodes := ns', edges := des }, ?_, by simpa using hproj, rfl⟩
  have hparse : parse_drawio_mxgraphmodel
      ([{ id := some "0" }, { id := some "1", parent := some "0" }] ++
        enumMap drawioNodeCell 0 (dns.map DNode.toPy) ++
        enumMap drawioEdgeCell 0 (des.map DEdge.toPy)) =
      .ok { nodes := ns', edges := des } := by
    unfold parse_drawio_mxgraphmodel
    have hc0 : parseCell { nodes := [], edges := [] } { id := some "0" } =
        .ok { nodes := [], edges := [] } := rfl
    have hc1 : parseCell { nodes := [], edges := [] }
        { id := some "1", parent := some "0" } = .ok { nodes := [], edges := [] } := rfl
    simp only [List.append_assoc, List.foldlM_append, List.foldlM_cons,
      List.foldlM_nil, hc0, hc1, exceptPure, exceptBind_ok, hnodes,
      List.nil_append]
    simpa using hedges
  simp only [read_drawio, create_drawio_xml, List.foldlM_cons, List.foldlM_nil,
    processDiagram, nestedFallback, hparse, exceptBind_ok]
  rfl

/-! ### Excalidraw half -/

/-- The C1-relevant projection of a parsed node: id, type discriminator and
text. -/
def nproj (n : ExNode) : String × String × Option String := (n.id, n.ntype, n.text)

/-- Shape of every node the Excalidraw parser can produce: a text node with
non-empty text, or a shape node (not arrow/line/text) with no text field. -/
def ExInv (n : ExNode) : Prop :=
  (n.ntype = "text" ∧ ∃ tx, n.text = some tx ∧ tx ≠ "") ∨
    (n.ntype ≠ "arrow" ∧ n.ntype ≠ "line" ∧ n.ntype ≠ "text" ∧ n.text = none)

theorem exParseStep_inv (acc : ExParsed) (el : ExElement)
    (h : ∀ n ∈ acc.nodes, ExInv n) :
    ∀ n ∈ (exParseStep acc el).nodes, ExInv n := by
  intro n hn
  simp only [exParseStep] at hn
  split at hn
  · exact h n hn
  · split at hn
    · next h1 h2 =>
      split at hn
      · next h3 =>
        rcases List.mem_append.mp hn with hm | hm
        · exact h n hm
        · simp only [List.mem_singleton] at hm
          subst hm
          exact Or.inl ⟨h2, el.text.getD "", rfl, h3⟩
      · exact h n hn
    · next h1 h2 =>
      rcases List.mem_append.mp hn with hm | hm
      · exact h n hm
      · simp only [List.mem_singleton] at hm
        subst hm
        refine Or.inr ⟨?_, ?_, h2, rfl⟩
        · exact fun hc => h1 (Or.inl hc)
        · exact fun hc => h1 (Or.inr hc)

theorem read_excalidraw_inv (els : List ExElement) :
    ∀ n ∈ (read_excalidraw_elements els).nodes, ExInv n := by
  have : ∀ (l : List ExElement) (acc : ExParsed), (∀ n ∈ acc.nodes, ExInv n) →
      ∀ n ∈ (l.foldl exParseStep acc).nodes, ExInv n := by
    intro l
    induction l with
    | nil => exact fun acc h => h
    | cons el rest ih =>
      intro acc h
      exact ih (exParseStep acc el) (exParseStep_inv acc el h)
  exact this els {} (by intro n hn; simp at hn)

/-- The patch pass only touches `boundElements`; `elemCore` is an element with
that field erased. -/
def elemCore (el : ExElement) : ExElement := { el with boundElements := none }

theorem appendArrowRef_core (aid : String) (el : ExElement) :
    elemCore (appendArrowRef aid el) = elemCore el := rfl

theorem listModify_core (f : ExElement → ExElement)
    (hf : ∀ a, elemCore (f a) = elemCore a) :
    ∀ (l : List ExElement) (i : Nat),
      (listModify l i f).map elemCore = l.map elemCore := by
  intro l
  induction l with
  | nil => intro i; rfl
  | cons a rest ih =>
    intro i
    cases i with
    | zero => simp [listModify, hf a]
    | succ n => simp [listModify, ih n]

theorem applyBind_core (emap : List (String × Nat)) (els : List ExElement)
    (b : ArrowBind) : (applyBind emap els b).map elemCore = els.map elemCore := by
  have hmod := listModify_core (appendArrowRef b.arrowId) (appendArrowRef_core b.arrowId)
  unfold applyBind
  split_ifs <;> (repeat' split) <;> simp [hmod]

theorem applyBinds_core (emap : List (String × Nat)) :
    ∀ (bs : List ArrowBind) (els : List ExElement),
      (applyBinds emap els bs).map elemCore = els.map elemCore := by
  intro bs
  induction bs with
  | nil => intro els; rfl
  | cons b rest ih =>
    intro els
    rw [applyBinds, ih, applyBind_core]

theorem core_fields {a b : ExElement} (h : elemCore a = elemCore b) :
    a.etype = b.etype ∧ a.id = b.id ∧ a.text = b.text ∧ a.x = b.x ∧ a.y = b.y ∧
      a.width = b.width ∧ a.height = b.height ∧
      a.backgroundColor = b.backgroundColor ∧ a.strokeColor = b.strokeColor ∧
      a.startBinding = b.startBinding ∧ a.endBinding = b.endBinding ∧
      a.points = b.points := by
  have h1 := congrArg ExElement.etype h
  have h2 := congrArg ExElement.id h
  have h3 := congrArg ExElement.text h
  have h4 := congrArg ExElement.x h
  have h5 := congrArg ExElement.y h
  have h6 := congrArg ExElement.width h
  have h7 := congrArg ExElement.height h
  have h8 := congrArg ExElement.backgroundColor h
  have h9 := congrArg ExElement.strokeColor h
  have h10 := congrArg ExElement.startBinding h
  have h11 := congrArg ExElement.endBinding h
  have h12 := congrArg ExElement.points h
  exact ⟨h1, h2, h3, h4, h5, h6, h7, h8, h9, h10, h11, h12⟩

/-- Equality of parse results up to the `boundElements` carried inside shape
nodes. -/
def pRel (P Q : ExParsed) : Prop :=
  P.nodes.map nproj = Q.nodes.map nproj ∧ P.edges = Q.edges ∧
    P.text_content = Q.text_content

theorem exParseStep_rel {P Q : ExParsed} {a b : ExElement} (hr : pRel P Q)
    (h : elemCore a = elemCore b) : pRel (exParseStep P a) (exParseStep Q b) := by
  obtain ⟨he, hid, htx, hx, hy, hw, hh, hbg, hsc, hsb, heb, hp⟩ := core_fields h
  obtain ⟨hrn, hre, hrt⟩ := hr
  simp only [exParseStep]
  rw [he, hid, htx, hx, hy, hw, hh, hbg, hsc, hsb, heb, hp]
  split_ifs <;>
    exact ⟨by simp [hrn, nproj], by simp [hre], by simp [hrt]⟩

theorem fold_rel :
    ∀ (as' bs : List ExElement) (P Q : ExParsed), pRel P Q →
      as'.map elemCore = bs.map elemCore →
      pRel (as'.foldl exParseStep P) (bs.foldl exParseStep Q) := by
  intro as'
  induction as' with
  | nil =>
    intro bs P Q hr hm
    cases bs with
    | nil => exact hr
    | cons b rest => simp at hm
  | cons a rest ih =>
    intro bs P Q hr hm
    cases bs with
    | nil => simp at hm
    | cons b brest =>
      simp only [List.map_cons, List.cons.injEq] at hm
      exact ih brest _ _ (exParseStep_rel hr hm.1) hm.2

theorem addNode_spec (ids : Nat → String) (st : GenSt) (i : Nat) (n : ExNode)
    (hinv : ExInv n) :
    ∃ el n' tc,
      addNode ids st i (ExNode.toPy n) =
        { elements := st.elements ++ [el],
          emap := (n.id, st.elements.length) :: st.emap,
          binds := st.binds, ctr := st.ctr } ∧
      (∀ acc, exParseStep acc el =
        { nodes := acc.nodes ++ [n'], edges := acc.edges,
          text_content := acc.text_content ++ tc }) ∧
      nproj n' = nproj n := by
  rcases hinv with ⟨htype, tx, htx, hne⟩ | ⟨ha, hl, ht, htn⟩
  · refine ⟨genTextNodeElem i n.id (ExNode.toPy n) tx,
      { id := n.id, ntype := "text", text := some tx, x := n.x, y := n.y,
        width := n.width, height := n.height }, [tx], ?_, ?_, ?_⟩
    · simp only [addNode, ExNode.toPy, PyNode.pyLabel, htype, htx, Option.getD_some,
        if_true, reduceIte]
    · intro acc
      simp only [exParseStep, genTextNodeElem, ExNode.toPy, Option.getD_some, htx]
      rw [if_neg (by decide), if_pos hne]
      simp
    · simp [nproj, htype, htx]
  · refine ⟨genShapeElem i n.id n.ntype (ExNode.toPy n) none,
      { id := n.id, ntype := n.ntype, text := none, x := n.x, y := n.y,
        width := n.width, height := n.height,
        backgroundColor := some (n.backgroundColor.getD "transparent"),
        strokeColor := some (n.strokeColor.getD "#1e1e1e"),
        boundElements := some [] }, [], ?_, ?_, ?_⟩
    · simp only [addNode, ExNode.toPy, PyNode.pyLabel, htn, Option.getD_some,
        Option.getD_none, ne_eq, not_true_eq_false, ht, if_false, reduceIte]
    · intro acc
      simp only [exParseStep, genShapeElem, ExNode.toPy, Option.getD_some]
      rw [if_neg (by simp [ha, hl]), if_neg ht]
      simp
    · simp [nproj, htn]

theorem addNodes_spec (ids : Nat → String) :
    ∀ (ns : List ExNode), (∀ n ∈ ns, ExInv n) →
    ∀ (st : GenSt) (i : Nat),
      ∃ added ns' tc,
        (addNodes ids st i (ns.map ExNode.toPy)).elements = st.elements ++ added ∧
        (addNodes ids st i (ns.map ExNode.toPy)).binds = st.binds ∧
        (addNodes ids st i (ns.map ExNode.toPy)).ctr = st.ctr ∧
        (∀ acc : ExParsed, added.foldl exParseStep acc =
          { nodes := acc.nodes ++ ns', edges := acc.edges,
            text_content := acc.text_content ++ tc }) ∧
        ns'.map nproj = ns.map nproj := by
  intro ns
  induction ns with
  | nil =>
    intro _ st i
    exact ⟨[], [], [], by simp [addNodes], rfl, rfl, by intro acc; simp, rfl⟩
  | cons n rest ih =>
    intro hinv st i
    obtain ⟨el, n', tc, hst, hstep, hproj⟩ :=
      addNode_spec ids st i n (hinv n (List.mem_cons_self n rest))
    obtain ⟨added, ns', tcs, hel, hbinds, hctr, hfold, hprojs⟩ :=
      ih (fun m hm => hinv m (List.mem_cons_of_mem n hm)) (addNode ids st i (ExNode.toPy n))
        (i + 1)
    refine ⟨el :: added, n' :: ns', tc ++ tcs, ?_, ?_, ?_, ?_, ?_⟩
    · rw [List.map_cons, addNodes, hel, hst]
      simp
    · rw [List.map_cons, addNodes, hbinds, hst]
    · rw [List.map_cons, addNodes, hctr, hst]
    · intro acc
      rw [List.foldl_cons, hfold, hstep]
      simp
    · simp [hproj, hprojs]

theorem edgeGen_unlabeled (nodes : List PyNode) (pe : PyEdge) (fA fT : String)
    (hlab : pe.label = none) :
    (edgeGen nodes pe fA fT).labelElem = none ∧
    (edgeGen nodes pe fA fT).arrow.etype = some "arrow" ∧
    (edgeGen nodes pe fA fT).arrow.id = some (pe.id.getD fA) := by
  refine ⟨?_, rfl, rfl⟩
  simp only [edgeGen, hlab, Option.getD_none]
  rw [if_neg (by decide)]

theorem exParseStep_arrow (acc : ExParsed) (el : ExElement)
    (hety : el.etype = some "arrow") :
    exParseStep acc el =
      { nodes := acc.nodes,
        edges := acc.edges ++
          [{ id := el.id.getD "", ntype := "arrow",
             source := el.startBinding.bind (·.elementId),
             target := el.endBinding.bind (·.elementId),
             points := el.points.getD [] }],
        text_content := acc.text_content } := by
  simp only [exParseStep, hety, Option.getD_some]
  norm_num

theorem addEdges_spec (nodes : List PyNode) (ids : Nat → String) :
    ∀ (es : List ExEdge) (st : GenSt),
      ∃ added es',
        (addEdges nodes ids st (es.map ExEdge.toPy)).elements = st.elements ++ added ∧
        (∀ acc : ExParsed, added.foldl exParseStep acc =
          { nodes := acc.nodes, edges := acc.edges ++ es',
            text_content := acc.text_content }) ∧
        es'.map (fun e => e.id) = es.map (fun e => e.id) ∧
        es'.map (fun e => e.ntype) = es.map (fun _ => "arrow") := by
  intro es
  induction es with
  | nil =>
    intro st
    exact ⟨[], [], by simp [addEdges], by intro acc; simp, rfl, rfl⟩
  | cons e rest ih =>
    intro st
    have hlab : (ExEdge.toPy e).label = none := rfl
    obtain ⟨hlabel, hety, hid⟩ :=
      edgeGen_unlabeled nodes (ExEdge.toPy e) (ids st.ctr)
        (ids (match (ExEdge.toPy e).id with | some _ => st.ctr | none => st.ctr + 1)) hlab
    obtain ⟨added, es', hel, hfold, hids, htys⟩ :=
      ih (addEdge nodes ids st (ExEdge.toPy e))
    set arrow := (edgeGen nodes (ExEdge.toPy e) (ids st.ctr)
      (ids (match (ExEdge.toPy e).id with | some _ => st.ctr | none => st.ctr + 1))).arrow
      with harrow
    refine ⟨arrow :: added,
      { id := arrow.id.getD "", ntype := "arrow",
        source := arrow.startBinding.bind (·.elementId),
        target := arrow.endBinding.bind (·.elementId),
        points := arrow.points.getD [] } :: es', ?_, ?_, ?_, ?_⟩
    · rw [List.map_cons, addEdges, hel]
      show _ = st.elements ++ (arrow :: added)
      rw [addEdge, ← harrow, hlabel]
      simp
    · intro acc
      rw [List.foldl_cons, hfold, exParseStep_arrow acc arrow hety]
      simp
    · rw [List.map_cons, List.map_cons, hids]
      have : arrow.id.getD "" = e.id := by rw [hid]; rfl
      rw [this]
    · rw [List.map_cons, List.map_cons, htys]

/-- The Excalidraw half of the C1 round trip: node id, type and text are
preserved exactly; edge ids are preserved; every Edge is re-emitted as an
`arrow`-type element regardless of its original type. -/
theorem excalidraw_roundtrip (els : List ExElement) (ids : Nat → String) :
    (read_excalidraw_elements (create_excalidraw_elements
        ((read_excalidraw_elements els).nodes.map ExNode.toPy)
        ((read_excalidraw_elements els).edges.map ExEdge.toPy) ids)).nodes.map nproj =
      (read_excalidraw_elements els).nodes.map nproj ∧
    (read_excalidraw_elements (create_excalidraw_elements
        ((read_excalidraw_elements els).nodes.map ExNode.toPy)
        ((read_excalidraw_elements els).edges.map ExEdge.toPy) ids)).edges.map
        (fun e => e.id) =
      (read_excalidraw_elements els).edges.map (fun e => e.id) ∧
    (read_excalidraw_elements (create_excalidraw_elements
        ((read_excalidraw_elements els).nodes.map ExNode.toPy)
        ((read_excalidraw_elements els).edges.map ExEdge.toPy) ids)).edges.map
        (fun e => e.ntype) =
      (read_excalidraw_elements els).edges.map (fun _ => "arrow") := by
  obtain ⟨addedN, ns', tc, hel1, hbind1, hctr1, hrep1, hproj1⟩ :=
    addNodes_spec ids (read_excalidraw_elements els).nodes (read_excalidraw_inv els)
      {} 0
  obtain ⟨addedE, es', hel2, hrep2, hid2, hty2⟩ :=
    addEdges_spec ((read_excalidraw_elements els).nodes.map ExNode.toPy) ids
      (read_excalidraw_elements els).edges
      (addNodes ids {} 0 ((read_excalidraw_elements els).nodes.map ExNode.toPy))
  have hels : (addEdges ((read_excalidraw_elements els).nodes.map ExNode.toPy) ids
      (addNodes ids {} 0 ((read_excalidraw_elements els).nodes.map ExNode.toPy))
      ((read_excalidraw_elements els).edges.map ExEdge.toPy)).elements =
      addedN ++ addedE := by
    rw [hel2, hel1]
    simp
  have hcore : (create_excalidraw_elements
      ((read_excalidraw_elements els).nodes.map ExNode.toPy)
      ((read_excalidraw_elements els).edges.map ExEdge.toPy) ids).map elemCore =
      (addedN ++ addedE).map elemCore := by
    simp only [create_excalidraw_elements]
    rw [applyBinds_core, hels]
  have hrel : pRel
      (read_excalidraw_elements (create_excalidraw_elements
        ((read_excalidraw_elements els).nodes.map ExNode.toPy)
        ((read_excalidraw_elements els).edges.map ExEdge.toPy) ids))
      (read_excalidraw_elements (addedN ++ addedE)) :=
    fold_rel _ _ {} {} ⟨rfl, rfl, rfl⟩ hcore
  have hread : read_excalidraw_elements (addedN ++ addedE) =
      { nodes := ns', edges := es', text_content := tc } := by
    unfold read_excalidraw_elements
    rw [List.foldl_append, hrep1, hrep2]
    simp
  obtain ⟨hn, he, _⟩ := hrel
  rw [hread] at hn he
  refine ⟨hn.trans hproj1, ?_, ?_⟩
  · rw [he]
    exact hid2
  · rw [he]
    exact hty2

/-- An Excalidraw document whose single element is a `line` with both binding
ends free. -/
def lineFile : ExFile :=
  { elements := [{ etype := some "line", id := some "L1",
                   points := some [(0, 0), (50, 50)] }] }

/-- The `.excalidraw → .excalidraw` identity-conversion path of
`diagram_convert`. -/
def convertExToEx (f : ExFile) (ids : Nat → String) : ExFile :=
  let r := finishEx f.elements
  create_excalidraw_json (r.nodes.map ExNode.toPy) (r.edges.map ExEdge.toPy) ids

/-- C1 (counterexample): identity conversion of the whiteboard-JSON format
does *not* preserve the Edge type discriminator — a `line` element parses to
an Edge of type `"line"`, but the generator re-emits every Edge as an `arrow`
element, so re-parsing yields type `"arrow"` (the id is preserved). -/
theorem line_edge_type_not_preserved :
    (finishEx lineFile.elements).edges.map (fun e => e.ntype) = ["line"] ∧
    (finishEx (convertExToEx lineFile (fun _ => "g")).elements).edges.map
      (fun e => e.ntype) = ["arrow"] ∧
    (finishEx (convertExToEx lineFile (fun _ => "g")).elements).edges.map
      (fun e => e.id) = ["L1"] ∧
    ("line" : String) ≠ "arrow" :=
  ⟨rfl, rfl, rfl, by decide⟩

/-- C1 (amended): identity conversion preserves ids, labels and the
node/edge classification in both structured formats.  For draw.io,
`parse(generate(D))` preserves every Node's id, label and style and every
Edge *exactly* (id, source, target, label, style).  For the whiteboard
format, every Node's id, type discriminator and text are preserved and every
Edge's id is preserved, but the generator re-emits every Edge as an
`arrow`-type element, so an Edge's type discriminator is preserved exactly
iff it was `"arrow"` (`line` edges are normalised to arrows).  Position and
size may be re-derived.  (The vector-graphics parser reconstructs no
Node/Edge graph, so the property is vacuous there.) -/
theorem identity_roundtrip_preserves_ids_and_labels
    (dec : DecodeOracle) (xo : XmlOracle)
    (dns : List DNode) (des : List DEdge) (name : String)
    (hn : ∀ n ∈ dns, n.id ≠ "0" ∧ n.id ≠ "1")
    (he : ∀ e ∈ des, e.id ≠ "0" ∧ e.id ≠ "1" ∧ e.source ≠ "" ∧ e.target ≠ "")
    (els : List ExElement) (ids : Nat → String) :
    (∃ g, read_drawio dec xo
        (.ok (create_drawio_xml (dns.map DNode.toPy) (des.map DEdge.toPy) name)) =
        .ok (.ok (finishDrawio [⟨name, g⟩])) ∧
      g.nodes.map (fun n => (n.id, n.label, n.style)) =
        dns.map (fun n => (n.id, n.label, n.style)) ∧
      g.edges = des) ∧
    ((read_excalidraw_elements (create_excalidraw_elements
        ((read_excalidraw_elements els).nodes.map ExNode.toPy)
        ((read_excalidraw_elements els).edges.map ExEdge.toPy) ids)).nodes.map nproj =
      (read_excalidraw_elements els).nodes.map nproj ∧
    (read_excalidraw_elements (create_excalidraw_elements
        ((read_excalidraw_elements els).nodes.map ExNode.toPy)
        ((read_excalidraw_elements els).edges.map ExEdge.toPy) ids)).edges.map
        (fun e => e.id) =
      (read_excalidraw_elements els).edges.map (fun e => e.id) ∧
    (read_excalidraw_elements (create_excalidraw_elements
        ((read_excalidraw_elements els).nodes.map ExNode.toPy)
        ((read_excalidraw_elements els).edges.map ExEdge.toPy) ids)).edges.map
        (fun e => e.ntype) =
      (read_excalidraw_elements els).edges.map (fun _ => "arrow")) :=
  ⟨drawio_roundtrip dec xo dns des name hn he, excalidraw_roundtrip els ids⟩

/-- A one-node one-edge draw.io graph for the round-trip witness. -/
def dnsW : List DNode := [⟨"n", "A", "s", none⟩]

def desW : List DEdge := [⟨"e", "n", "n", "L", "t"⟩]

theorem identity_roundtrip_witness :
    (∃ g, read_drawio failingDec failingXo
        (.ok (create_drawio_xml (dnsW.map DNode.toPy) (desW.map DEdge.toPy) "P")) =
        .ok (.ok (finishDrawio [⟨"P", g⟩])) ∧
      g.nodes.map (fun n => (n.id, n.label, n.style)) =
        dnsW.map (fun n => (n.id, n.label, n.style)) ∧
      g.edges = desW) ∧
    ((read_excalidraw_elements (create_excalidraw_elements
        ((read_excalidraw_elements lineFile.elements).nodes.map ExNode.toPy)
        ((read_excalidraw_elements lineFile.elements).edges.map ExEdge.toPy)
        (fun _ => "g"))).nodes.map nproj =
      (read_excalidraw_elements lineFile.elements).nodes.map nproj ∧
    (read_excalidraw_elements (create_excalidraw_elements
        ((read_excalidraw_elements lineFile.elements).nodes.map ExNode.toPy)
        ((read_excalidraw_elements lineFile.elements).edges.map ExEdge.toPy)
        (fun _ => "g"))).edges.map (fun e => e.id) =
      (read_excalidraw_elements lineFile.elements).edges.map (fun e => e.id) ∧
    (read_excalidraw_elements (create_excalidraw_elements
        ((read_excalidraw_elements lineFile.elements).nodes.map ExNode.toPy)
        ((read_excalidraw_elements lineFile.elements).edges.map ExEdge.toPy)
        (fun _ => "g"))).edges.map (fun e => e.ntype) =
      (read_excalidraw_elements lineFile.elements).edges.map (fun _ => "arrow")) :=
  identity_roundtrip_preserves_ids_and_labels failingDec failingXo dnsW desW "P"
    (by decide) (by decide) lineFile.elements (fun _ => "g")

/-! ## Witnesses -/

theorem edge_label_element_spec_witness :
    ∃ t,
      (edgeGen [] edgeWithLongLabel "f1" "f2").labelElem = some t ∧
      t.text = some longLabel ∧
      t.fontSize = some 14 ∧
      t.id = some "f2" ∧
      t.containerId = (edgeGen [] edgeWithLongLabel "f1" "f2").arrow.id ∧
      (edgeGen [] edgeWithLongLabel "f1" "f2").arrow.boundElements =
        some [{ btype := "text", id := some "f2" }] ∧
      t.x = (edgeGen [] edgeWithLongLabel "f1" "f2").arrow.x.map (fun ax =>
        match ((edgeGen [] edgeWithLongLabel "f1" "f2").arrow.points.getD []).getLast? with
        | some p => ax + p.1 / 2
        | none => ax + 50) ∧
      t.y = (edgeGen [] edgeWithLongLabel "f1" "f2").arrow.y.map (fun ay =>
        match ((edgeGen [] edgeWithLongLabel "f1" "f2").arrow.points.getD []).getLast? with
        | some p => ay + p.2 / 2 - 15
        | none => ay - 15) :=
  edge_label_element_spec [] edgeWithLongLabel "f1" "f2" longLabel rfl (by decide)

def srcW : PyNode :=
  { id := some "a", x := some 0, y := some 0, width := some 100, height := some 50 }

def tgtW : PyNode :=
  { id := some "b", x := some 200, y := some 0, width := some 100, height := some 50 }

def edgeW : PyEdge := { id := some "E", source := some "a", target := some "b" }

theorem edge_waypoints_anchors_witness :
    (edgeGen [srcW, tgtW] edgeW "fa" "ft").arrow.x =
      some (startAnchorOf srcW tgtW none).1 ∧
    (edgeGen [srcW, tgtW] edgeW "fa" "ft").arrow.y =
      some (startAnchorOf srcW tgtW none).2 ∧
    onBoundary 0 0 100 50 (startAnchorOf srcW tgtW none) ∧
    onBoundary 200 0 100 50 (endAnchorOf srcW tgtW none) := by
  have h := (edge_waypoints_anchors [srcW, tgtW] edgeW "fa" "ft" srcW tgtW rfl rfl
    (by decide) (by decide) (by decide) (by decide)).1 rfl
  exact ⟨h.1, h.2.1, h.2.2.2.2.2.1, h.2.2.2.2.2.2⟩

def danglingEdgeW : PyEdge :=
  { id := some "E", source := some "missing", target := some "b" }

theorem svg_dangling_source_witness :
    svgEdgeParts [srcW] 0 0 danglingEdgeW = [] ∧
    (create_svg [srcW] [danglingEdgeW] 800 600).countP isLine = 0 := by
  have hyp : ∀ s, danglingEdgeW.source = some s → ∀ k ∈ svgKeys [srcW], s ≠ k := by
    intro s hs k hk
    cases hs
    simp only [svgKeys, enumMap, svgKey, srcW, Option.getD_some, List.mem_singleton] at hk
    subst hk
    decide
  exact ⟨svg_dangling_source_produces_no_line.1 [srcW] 0 0 danglingEdgeW hyp,
    svg_dangling_source_produces_no_line.2 [srcW] [danglingEdgeW] 800 600
      (by intro e he k hk; rw [List.mem_singleton] at he; subst he; exact hyp k hk)⟩

theorem parsers_return_tagged_results_witness :
    read_drawio failingDec failingXo (.error "boom") =
      .ok (.parseError ("Invalid XML: " ++ "boom")) ∧
    read_excalidraw (.error "boom") = .parseError ("Invalid JSON: " ++ "boom") ∧
    (∃ g, parse_drawio_mxgraphmodel [] = .ok g) ∧
    (∃ out, read_drawio failingDec failingXo (.ok (.mxGraphModel [])) = .ok out) ∧
    (∃ out, read_drawio failingDec failingXo (.ok (.mxfile [])) = .ok out) :=
  parsers_return_tagged_results failingDec failingXo "boom" [] []
    (by intro s cells h; simp [failingXo] at h)
    (by intro d hd; cases hd) rfl

def sampleDec : DecodeOracle :=
  { urlDecode := id
    b64decode := fun s => if s = "ENC" then some "blob" else none
    inflate := fun s => if s = "blob" then some "plainbytes" else none
    utf8decode := fun s => some s }

def sampleXo : XmlOracle :=
  { fromstring := fun s =>
      if s = "plainbytes" ∨ s = "<mxGraphModel/>" then
        some [{ id := some "n1", value := some "A", vertex := some "1" }]
      else none }

def cellsW : List MxCell := [{ id := some "n1", value := some "A", vertex := some "1" }]

def gW : DrawioGraph := { nodes := [⟨"n1", "A", "", none⟩], edges := [] }

theorem drawio_plain_xml_payload_fallback_witness :
    read_drawio sampleDec sampleXo
        (.ok (.mxfile
          [{ name := some "D", text := some "<mxGraphModel/>", nested := none }])) =
      .ok (.ok (finishDrawio [⟨"D", gW⟩])) ∧
    read_drawio sampleDec sampleXo
        (.ok (.mxfile [{ name := some "D", text := some "ENC", nested := none }])) =
      .ok (.ok (finishDrawio [⟨"D", gW⟩])) :=
  drawio_plain_xml_payload_fallback sampleDec sampleXo "D" "<mxGraphModel/>" "ENC"
    "plainbytes" cellsW gW (by decide) (by decide) (by decide) (by decide)
    (by decide) (by decide) rfl

def edgeCellW : MxCell :=
  { id := some "x", source := some "s", target := some "t" }

def gEW : DrawioGraph := { nodes := [], edges := [⟨"x", "s", "t", "", ""⟩] }

def oneEndCellW : MxCell := { id := some "c", source := some "s" }

def oneEndValueCellW : MxCell :=
  { id := some "c", source := some "s", value := some "V" }

def gTwoW : DrawioGraph := { nodes := [⟨"c", "V", "", none⟩], edges := [] }

theorem drawio_edge_requires_both_endpoints_witness :
    ((⟨"x", "s", "t", "", ""⟩ : DEdge).source ≠ "" ∧
      (⟨"x", "s", "t", "", ""⟩ : DEdge).target ≠ "") ∧
    parseCell {} oneEndCellW = .ok {} ∧
    (gTwoW.edges = ({} : DrawioGraph).edges ∧
      ∃ geo, gTwoW.nodes = ({} : DrawioGraph).nodes ++ [⟨"c", "V", "", geo⟩]) := by
  refine ⟨?_, ?_, ?_⟩
  · exact drawio_edge_requires_both_endpoints.1 [edgeCellW] gEW rfl _ (by decide)
  · exact (drawio_edge_requires_both_endpoints.2 {} oneEndCellW (by decide)
      (by decide)).1 (by decide)
  · exact (drawio_edge_requires_both_endpoints.2 {} oneEndValueCellW (by decide)
      (by decide)).2 gTwoW (by decide) rfl

end DiagramTools
